import Mathlib

/-!
Verification development for the invoice-qc-service repository.

The validator (`src/invoice_qc/validator.py`) consumes loosely-typed invoice
records (Python dicts).  We embed the Python value universe shallowly:
`Value` covers the runtime types the validator inspects, `Decimal` models
`decimal.Decimal` as an integer mantissa with a decimal-places exponent
(exact decimal arithmetic), and Python exceptions that escape the validator
are modelled with `Except PyErr`.  `decimal.InvalidOperation` is an
`ArithmeticError` in Python, so it is NOT caught by the
`except (ValueError, TypeError)` clause in `_to_decimal`; the embedding
reflects that by propagating `PyErr.invalidOperation`.
-/

namespace InvoiceQC

/-! ## Decimal digit rendering (Python `str` of ints / Decimals) -/

/-- Base-10 digits of a natural number, least significant first; fuel-driven
so that it is structural and kernel-reducible. -/
def digitsRevAux : Nat → Nat → List Nat
  | 0, _ => []
  | fuel+1, n => if n < 10 then [n] else n % 10 :: digitsRevAux fuel (n / 10)

def digitsRev (n : Nat) : List Nat := digitsRevAux (n+1) n

/-- Decode little-endian base-10 digits. -/
def undigits : List Nat → Nat
  | [] => 0
  | d :: ds => d + 10 * undigits ds

/-- Value of big-endian digits. -/
def digitsVal (l : List Nat) : Nat := l.foldl (fun acc d => acc * 10 + d) 0

def digitChar (d : Nat) : Char := Char.ofNat (48 + d)

def charDigit (c : Char) : Nat := c.toNat - 48

/-- Python `str` of a natural number. -/
def natStr (n : Nat) : String := String.mk ((digitsRev n).reverse.map digitChar)

/-- Python `str` of an int. -/
def intStr (n : Int) : String := if n < 0 then "-" ++ natStr n.natAbs else natStr n.natAbs

theorem digitsRevAux_undigits : ∀ fuel n, n < fuel → undigits (digitsRevAux fuel n) = n := by
  intro fuel
  induction fuel with
  | zero => intro n h; omega
  | succ f ih =>
    intro n h
    by_cases h10 : n < 10
    · simp [digitsRevAux, h10, undigits]
    · have hdiv : n / 10 < f := by omega
      simp only [digitsRevAux, if_neg h10, undigits, ih _ hdiv]
      omega

theorem digitsRev_undigits (n : Nat) : undigits (digitsRev n) = n :=
  digitsRevAux_undigits (n+1) n (Nat.lt_succ_self n)

theorem digitsRevAux_lt10 : ∀ fuel n d, d ∈ digitsRevAux fuel n → d < 10 := by
  intro fuel
  induction fuel with
  | zero => intro n d h; simp [digitsRevAux] at h
  | succ f ih =>
    intro n d h
    by_cases h10 : n < 10
    · simp [digitsRevAux, h10] at h; omega
    · simp only [digitsRevAux, if_neg h10, List.mem_cons] at h
      rcases h with h | h
      · omega
      · exact ih _ _ h

theorem digitsRevAux_ne_nil (fuel n : Nat) (h : 0 < fuel) : digitsRevAux fuel n ≠ [] := by
  cases fuel with
  | zero => omega
  | succ f =>
    by_cases h10 : n < 10 <;> simp [digitsRevAux, h10]

theorem digitChar_toNat (d : Nat) (h : d < 10) : (digitChar d).toNat = 48 + d := by
  interval_cases d <;> rfl

theorem digitChar_inj (d1 d2 : Nat) (h1 : d1 < 10) (h2 : d2 < 10)
    (h : digitChar d1 = digitChar d2) : d1 = d2 := by
  have := congrArg Char.toNat h
  rw [digitChar_toNat d1 h1, digitChar_toNat d2 h2] at this
  omega

theorem digitChar_isDigit (d : Nat) (h : d < 10) : (digitChar d).isDigit = true := by
  interval_cases d <;> rfl

theorem map_digitChar_inj : ∀ (l1 l2 : List Nat),
    (∀ d ∈ l1, d < 10) → (∀ d ∈ l2, d < 10) →
    l1.map digitChar = l2.map digitChar → l1 = l2 := by
  intro l1
  induction l1 with
  | nil => intro l2 _ _ h; cases l2 <;> simp_all
  | cons a as ih =>
    intro l2 h1 h2 h
    cases l2 with
    | nil => simp at h
    | cons b bs =>
      simp only [List.map_cons, List.cons.injEq] at h
      have ha : a = b := digitChar_inj a b (h1 a (by simp)) (h2 b (by simp)) h.1
      have := ih bs (fun d hd => h1 d (by simp [hd])) (fun d hd => h2 d (by simp [hd])) h.2
      rw [ha, this]

theorem natStr_injective : Function.Injective natStr := by
  intro a b h
  unfold natStr at h
  have hdata := congrArg String.data h
  simp only at hdata
  have hrev := congrArg List.reverse hdata
  simp only [← List.map_reverse, List.reverse_reverse] at hrev
  have := map_digitChar_inj (digitsRev a) (digitsRev b)
    (fun d hd => digitsRevAux_lt10 _ _ _ hd) (fun d hd => digitsRevAux_lt10 _ _ _ hd) hrev
  have ha := digitsRev_undigits a
  have hb := digitsRev_undigits b
  rw [← ha, ← hb, this]

theorem natStr_head_isDigit (n : Nat) :
    ∃ c, (natStr n).data.head? = some c ∧ c.isDigit = true := by
  unfold natStr
  have hne : digitsRev n ≠ [] := digitsRevAux_ne_nil _ _ (Nat.succ_pos n)
  have hrne : (digitsRev n).reverse ≠ [] := by simpa using hne
  obtain ⟨c, cs, hcons⟩ := List.exists_cons_of_ne_nil hrne
  refine ⟨digitChar c, ?_, ?_⟩
  · simp [hcons]
  · have hc : c ∈ (digitsRev n).reverse := by simp [hcons]
    rw [List.mem_reverse] at hc
    exact digitChar_isDigit c (digitsRevAux_lt10 _ _ _ hc)

/-! ## Decimal: `decimal.Decimal` with exact arithmetic

`man / 10 ^ exp` is the numeric value.  Addition/subtraction align to the
larger number of decimal places (Python's exact behaviour inside the default
28-digit context); multiplication adds the scales. -/

structure Decimal where
  man : Int
  exp : Nat
deriving DecidableEq

namespace Decimal

def val (d : Decimal) : ℚ := (d.man : ℚ) / (10 : ℚ) ^ d.exp

def add (a b : Decimal) : Decimal :=
  ⟨a.man * 10 ^ (max a.exp b.exp - a.exp) + b.man * 10 ^ (max a.exp b.exp - b.exp),
   max a.exp b.exp⟩

def sub (a b : Decimal) : Decimal :=
  ⟨a.man * 10 ^ (max a.exp b.exp - a.exp) - b.man * 10 ^ (max a.exp b.exp - b.exp),
   max a.exp b.exp⟩

def abs (a : Decimal) : Decimal := ⟨if a.man < 0 then -a.man else a.man, a.exp⟩

def mul (a b : Decimal) : Decimal := ⟨a.man * b.man, a.exp + b.exp⟩

/-- Value-based strict order, as Python compares Decimals. -/
def ltb (a b : Decimal) : Bool := decide (a.man * 10 ^ b.exp < b.man * 10 ^ a.exp)

def gtb (a b : Decimal) : Bool := ltb b a

/-- Python truthiness of a Decimal: nonzero. -/
def truthyb (d : Decimal) : Bool := decide (d.man ≠ 0)

theorem pow10_pos (e : Nat) : (0 : ℚ) < 10 ^ e := by positivity

theorem pow10_sub_mul {e1 e : Nat} (h : e1 ≤ e) :
    (10 : ℚ) ^ (e - e1) * 10 ^ e1 = 10 ^ e := by
  rw [← pow_add, Nat.sub_add_cancel h]

theorem rescale_div (m : Int) {e1 e : Nat} (h : e1 ≤ e) :
    ((m : ℚ) * 10 ^ (e - e1)) / 10 ^ e = (m : ℚ) / 10 ^ e1 := by
  rw [div_eq_div_iff (ne_of_gt (pow10_pos e)) (ne_of_gt (pow10_pos e1)),
    mul_assoc, pow10_sub_mul h]

theorem val_add (a b : Decimal) : (a.add b).val = a.val + b.val := by
  unfold val add
  push_cast
  rw [add_div, rescale_div a.man (Nat.le_max_left a.exp b.exp),
    rescale_div b.man (Nat.le_max_right a.exp b.exp)]

theorem val_sub (a b : Decimal) : (a.sub b).val = a.val - b.val := by
  unfold val sub
  push_cast
  rw [sub_div, rescale_div a.man (Nat.le_max_left a.exp b.exp),
    rescale_div b.man (Nat.le_max_right a.exp b.exp)]

theorem val_abs (a : Decimal) : a.abs.val = |a.val| := by
  unfold val abs
  rcases lt_or_le a.man 0 with h | h
  · rw [if_pos h, abs_div, abs_of_pos (pow10_pos a.exp)]
    push_cast
    rw [abs_of_neg (by exact_mod_cast h)]
  · rw [if_neg (not_lt.mpr h), abs_div, abs_of_pos (pow10_pos a.exp),
      abs_of_nonneg (by exact_mod_cast h)]

theorem val_mul (a b : Decimal) : (a.mul b).val = a.val * b.val := by
  unfold val mul
  push_cast
  rw [pow_add]
  field_simp

theorem ltb_iff (a b : Decimal) : a.ltb b = true ↔ a.val < b.val := by
  unfold ltb val
  rw [decide_eq_true_eq, div_lt_div_iff₀ (pow10_pos a.exp) (pow10_pos b.exp)]
  constructor
  · intro h; exact_mod_cast h
  · intro h; exact_mod_cast h

theorem gtb_iff (a b : Decimal) : a.gtb b = true ↔ b.val < a.val := ltb_iff b a

/-- Python `str` of a Decimal with `exp` decimal places. -/
def decStr (d : Decimal) : String :=
  let digs := (digitsRev d.man.natAbs).reverse.map digitChar
  let digs := if digs.length < d.exp + 1
    then List.replicate (d.exp + 1 - digs.length) '0' ++ digs else digs
  let intPart := digs.take (digs.length - d.exp)
  let fracPart := digs.drop (digs.length - d.exp)
  String.mk ((if d.man < 0 then ['-'] else []) ++ intPart ++
    (if d.exp = 0 then [] else '.' :: fracPart))

/-- Python `repr`/`str` of a float whose shortest decimal representation is
`d` (float `str` always shows a decimal point). -/
def floatStr (d : Decimal) : String :=
  if d.exp = 0 then decStr d ++ ".0" else decStr d

end Decimal

/-! ## Parsing decimal literals: `Decimal(str(value))` -/

/-- Parse an unsigned decimal literal (digits, optionally a dot and more
digits; at least one digit overall), as accepted by `decimal.Decimal`. -/
def parseDecUnsigned (l : List Char) : Option Decimal :=
  let ip := l.takeWhile Char.isDigit
  let rest := l.dropWhile Char.isDigit
  match rest with
  | [] => if ip.isEmpty then Option.none else some ⟨(digitsVal (ip.map charDigit) : Nat), 0⟩
  | c :: fp =>
    if c = '.' && fp.all Char.isDigit && !(ip.isEmpty && fp.isEmpty) then
      some ⟨(digitsVal ((ip ++ fp).map charDigit) : Nat), fp.length⟩
    else Option.none

/-- `Decimal(s)` for a string `s`: sign, digits, optional fraction.
Returns `none` where Python raises `decimal.InvalidOperation`. -/
def parseDec (s : String) : Option Decimal :=
  match s.data with
  | [] => Option.none
  | '+' :: rest => parseDecUnsigned rest
  | '-' :: rest => (parseDecUnsigned rest).map fun d => ⟨-d.man, d.exp⟩
  | l => parseDecUnsigned l

/-! ## Dates: `datetime.date` and `datetime.fromisoformat` -/

structure PyDate where
  year : Nat
  month : Nat
  day : Nat
deriving DecidableEq

def isLeap (y : Nat) : Bool := y % 4 = 0 && (y % 100 != 0 || y % 400 = 0)

def daysInMonth (y m : Nat) : Nat :=
  if m = 2 then (if isLeap y then 29 else 28)
  else if m = 4 || m = 6 || m = 9 || m = 11 then 30
  else 31

/-- `datetime.fromisoformat(s).date()` for the `YYYY-MM-DD` form: digits,
dashes, calendar-valid month/day, year at least 1.  Returns `none` where
Python raises `ValueError`. -/
def isoParseL : List Char → Option PyDate
  | [y1, y2, y3, y4, s1, m1, m2, s2, d1, d2] =>
    if y1.isDigit && y2.isDigit && y3.isDigit && y4.isDigit &&
       m1.isDigit && m2.isDigit && d1.isDigit && d2.isDigit &&
       s1 = '-' && s2 = '-' then
      let y := digitsVal ([y1, y2, y3, y4].map charDigit)
      let m := digitsVal ([m1, m2].map charDigit)
      let d := digitsVal ([d1, d2].map charDigit)
      if 1 ≤ y && 1 ≤ m && m ≤ 12 && 1 ≤ d && d ≤ daysInMonth y m then
        some ⟨y, m, d⟩
      else Option.none
    else Option.none
  | _ => Option.none

def isoParse (s : String) : Option PyDate := isoParseL s.data

def dateKey (d : PyDate) : Nat := d.year * 10000 + d.month * 100 + d.day

/-- Comparison of `datetime.date` values (lexicographic on y/m/d; the key
encoding agrees with it because month and day are below 100 for real
Python `date` objects). -/
def dateLt (a b : PyDate) : Bool := decide (dateKey a < dateKey b)

def padNat (w n : Nat) : List Char :=
  let ds := (digitsRev n).reverse.map digitChar
  List.replicate (w - ds.length) '0' ++ ds

/-- Python `str` of a `datetime.date`: ISO `YYYY-MM-DD`. -/
def isoStr (d : PyDate) : String :=
  String.mk (padNat 4 d.year ++ '-' :: (padNat 2 d.month ++ '-' :: padNat 2 d.day))

/-! ## The Python value universe the validator inspects

A `flt` is a Python float carried by the decimal number that its shortest
`repr` denotes, which is exactly what `Decimal(str(x))` sees. -/

inductive Value where
  | none
  | bool (b : Bool)
  | int (n : Int)
  | flt (d : Decimal)
  | dec (d : Decimal)
  | str (s : String)
  | date (d : PyDate)
  | list (l : List Value)
  | dict (l : List (String × Value))

/-- Python truthiness. -/
def truthy : Value → Bool
  | .none => false
  | .bool b => b
  | .int n => decide (n ≠ 0)
  | .flt d => d.truthyb
  | .dec d => d.truthyb
  | .str s => !s.data.isEmpty
  | .date _ => true
  | .list l => !l.isEmpty
  | .dict l => !l.isEmpty

/-- Python `str`/`repr` of scalar values. -/
def pyStrScalar : Value → String
  | .none => "None"
  | .bool b => if b then "True" else "False"
  | .int n => intStr n
  | .flt d => Decimal.floatStr d
  | .dec d => Decimal.decStr d
  | .str s => s
  | .date d => isoStr d
  | .list _ => ""
  | .dict _ => ""

mutual

/-- Python `repr`: containers recurse with `repr`, as Python does. -/
def pyRepr : Value → String
  | .str s => "\x27" ++ s ++ "\x27"
  | .date d => "datetime.date(" ++ natStr d.year ++ ", " ++ natStr d.month ++
      ", " ++ natStr d.day ++ ")"
  | .list l => "[" ++ String.intercalate ", " (pyReprList l) ++ "]"
  | .dict l => "\x7b" ++ String.intercalate ", " (pyReprPairs l) ++ "\x7d"
  | v => pyStrScalar v

def pyReprList : List Value → List String
  | [] => []
  | v :: vs => pyRepr v :: pyReprList vs

def pyReprPairs : List (String × Value) → List String
  | [] => []
  | (k, v) :: vs => ("\x27" ++ k ++ "\x27: " ++ pyRepr v) :: pyReprPairs vs

end

/-- Python `str(value)`, as used by f-string interpolation and by
`_to_decimal`'s `Decimal(str(value))`. -/
def pyStrVal (v : Value) : String :=
  match v with
  | .str s => s
  | .date d => isoStr d
  | v => pyRepr v

/-- Exceptions that can escape the validator (uncaught by its `try` blocks). -/
inductive PyErr where
  | invalidOperation
  | attributeError
  | typeError
deriving DecidableEq

instance {ε α : Type} [DecidableEq ε] [DecidableEq α] : DecidableEq (Except ε α) :=
  fun a b =>
    match a, b with
    | .ok x, .ok y =>
      if h : x = y then isTrue (by rw [h]) else isFalse (fun hc => h (Except.ok.inj hc))
    | .error x, .error y =>
      if h : x = y then isTrue (by rw [h]) else isFalse (fun hc => h (Except.error.inj hc))
    | .ok _, .error _ => isFalse (fun hc => Except.noConfusion hc)
    | .error _, .ok _ => isFalse (fun hc => Except.noConfusion hc)

/-- An invoice record: the Python dict passed to `validate`. -/
def Record := List (String × Value)

/-- `invoice.get(k)`: `None` when the key is absent. -/
def Record.getV (r : Record) (k : String) : Value := (List.lookup k r).getD Value.none

/-- `invoice.get(k, default)`: the default only when the key is absent. -/
def Record.getVD (r : Record) (k : String) (d : Value) : Value := (List.lookup k r).getD d

/-- `item.get(key)` on an arbitrary value: attribute error unless a dict. -/
def getKey (item : Value) (key : String) : Except PyErr Value :=
  match item with
  | .dict l => .ok ((List.lookup key l).getD Value.none)
  | _ => .error PyErr.attributeError

/-- `InvoiceValidator._to_decimal`.  The Python code catches only
`ValueError`/`TypeError`, but `Decimal(str(value))` signals parse failure
with `decimal.InvalidOperation` (an `ArithmeticError`), which therefore
escapes. -/
def toDecimal : Value → Except PyErr (Option Decimal)
  | Value.none => .ok Option.none
  | Value.dec d => .ok (some d)
  | v =>
    match parseDec (pyStrVal v) with
    | some d => .ok (some d)
    | Option.none => .error PyErr.invalidOperation

/-- Python string comparison: lexicographic on code points. -/
def strLtb : List Char → List Char → Bool
  | [], [] => false
  | [], _ :: _ => true
  | _ :: _, [] => false
  | a :: as, b :: bs =>
    if a.toNat < b.toNat then true
    else if a.toNat = b.toNat then strLtb as bs
    else false

/-- Numeric view `(numerator, decimal places)` of values Python compares as
numbers (bool counts as int). -/
def numPair : Value → Option (Int × Nat)
  | .bool b => some (if b then 1 else 0, 0)
  | .int n => some (n, 0)
  | .flt d => some (d.man, d.exp)
  | .dec d => some (d.man, d.exp)
  | _ => Option.none

/-- Python `a < b`: `some` of the outcome where the comparison succeeds,
`none` where Python raises `TypeError`. -/
def pyLtV (a b : Value) : Option Bool :=
  match numPair a, numPair b with
  | some (m1, e1), some (m2, e2) => some (decide (m1 * 10 ^ e2 < m2 * 10 ^ e1))
  | _, _ =>
    match a, b with
    | .str s1, .str s2 => some (strLtb s1.data s2.data)
    | .date d1, .date d2 => some (dateLt d1 d2)
    | _, _ => Option.none

/-- A date-typed value as the format check's parse step sees it: strings go
through `fromisoformat` (`none` = `ValueError`), everything else is passed
through unchanged for the comparison to accept or reject. -/
def normDate : Value → Option Value
  | .str s => (isoParse s).map Value.date
  | v => some v

/-- Python `value.strip()` is falsy iff the string is all whitespace. -/
def isBlank (s : String) : Bool := s.data.all Char.isWhitespace

/-- `tax_id.replace("-", "").replace(" ", "")`. -/
def stripDashSpace (s : String) : List Char :=
  s.data.filter (fun c => !(c = '-' || c = ' '))

/-- Python `str.isalnum` (ASCII fragment): nonempty and all alphanumeric. -/
def pyIsAlnum (l : List Char) : Bool := !l.isEmpty && l.all Char.isAlphanum

def charUpper (c : Char) : Char :=
  if 97 ≤ c.toNat && c.toNat ≤ 122 then Char.ofNat (c.toNat - 32) else c

/-- Python `str.upper` (ASCII fragment). -/
def pyUpper (s : String) : String := String.mk (s.data.map charUpper)

/-! ## The validator (`src/invoice_qc/validator.py`) -/

/-- `models.ValidationResult`. -/
structure ValidationResult where
  invoice_id : String
  is_valid : Bool
  errors : List String
  warnings : List String
deriving DecidableEq

/-- `models.ValidationSummary` (the timestamp is presentation-only and not
modelled; `error_counts` is the dict as an insertion-ordered association
list, exactly how CPython dicts behave). -/
structure ValidationSummary where
  total_invoices : Nat
  valid_invoices : Nat
  invalid_invoices : Nat
  error_counts : List (String × Nat)
deriving DecidableEq

/-- The dictionary `validate_batch` returns. -/
structure BatchOutput where
  summary : ValidationSummary
  results : List ValidationResult
deriving DecidableEq

/-- The Duplicate Oracle: `db.check_duplicate(invoice_number, seller_name,
invoice_date)`, fallible (`none` = the exception the validator swallows). -/
def Oracle := Value → Value → String → Option Bool

/-- The `invoice_id` computation at the top of `validate`. -/
def invoiceIdOf (invoice : Record) : String :=
  let sourceFile :=
    match List.lookup "source_file" invoice with
    | some v => pyStrVal v
    | Option.none => "NO_FILE"
  match invoice.getV "invoice_number" with
  | Value.none => "UNKNOWN_" ++ sourceFile
  | Value.str s => if isBlank s then "UNKNOWN_" ++ sourceFile else s
  | v => pyStrVal v

def requiredFields : List String :=
  ["invoice_number", "invoice_date", "seller_name", "buyer_name",
   "currency", "net_total", "tax_amount", "gross_total"]

/-- The per-field condition body of `_check_required_fields`'s loop. -/
def fieldFinding (f : String) (v : Value) : Option String :=
  match v with
  | Value.none => some ("Missing required field: " ++ f)
  | Value.str s => if isBlank s then some ("Empty required field: " ++ f) else Option.none
  | Value.int n => if n < 0 then some ("Negative value in required field: " ++ f) else Option.none
  | Value.flt d => if d.man < 0 then some ("Negative value in required field: " ++ f) else Option.none
  | Value.dec d => if d.man < 0 then some ("Negative value in required field: " ++ f) else Option.none
  | Value.bool _ => Option.none
  | _ => Option.none

/-- `_check_required_fields`: the errors it appends, in field order. -/
def checkRequiredFields (invoice : Record) : List String :=
  requiredFields.filterMap (fun f => fieldFinding f (invoice.getV f))

def allowedCurrencies : List String := ["EUR", "USD", "INR", "GBP"]

def tol01 : Decimal := ⟨1, 2⟩

/-- `self.high_amount_threshold = Decimal('1000000.00')`. -/
def highAmountThreshold : Decimal := ⟨100000000, 2⟩

/-- The invoice-date block of `_check_formats`; its `try` catches
`ValueError`/`TypeError` (parse failure or an incomparable type) and turns
them into the format finding. -/
def invoiceDateErrs (invoice : Record) (today : PyDate) : List String :=
  let invoice_date := invoice.getV "invoice_date"
  if truthy invoice_date then
    match normDate invoice_date with
    | some parsed =>
      match pyLtV (Value.date today) parsed with
      | some b => if b then ["Invoice date cannot be in the future"] else []
      | Option.none => ["Invalid invoice_date format: " ++ pyStrVal invoice_date]
    | Option.none => ["Invalid invoice_date format: " ++ pyStrVal invoice_date]
  else []

/-- The due-date block of `_check_formats` (re-parses the invoice date; any
failure inside the `try` yields the due-date finding). -/
def dueDateErrs (invoice : Record) : List String :=
  let invoice_date := invoice.getV "invoice_date"
  let due_date := invoice.getV "due_date"
  if truthy due_date && truthy invoice_date then
    match normDate due_date, normDate invoice_date with
    | some pd, some pi =>
      match pyLtV pd pi with
      | some b => if b then ["Due date cannot be before invoice date"] else []
      | Option.none => ["Invalid due_date format: " ++ pyStrVal due_date]
    | _, _ => ["Invalid due_date format: " ++ pyStrVal due_date]
  else []

/-- The currency block of `_check_formats`; `.upper()` on a truthy
non-string raises `AttributeError`. -/
def currencyErrs (invoice : Record) : Except PyErr (List String) :=
  let currency := invoice.getV "currency"
  if truthy currency then
    match currency with
    | Value.str s =>
      if allowedCurrencies.contains (pyUpper s) then pure []
      else pure ["Invalid currency: " ++ s ++
        ". Must be one of [\x27EUR\x27, \x27USD\x27, \x27INR\x27, \x27GBP\x27]"]
    | _ => Except.error PyErr.attributeError
  else pure []

/-- A tax-ID block of `_check_formats` (`label` is the message prefix);
`.replace()` on a truthy non-string raises `AttributeError`. -/
def taxIdWarns (invoice : Record) (key : String) (label : String) :
    Except PyErr (List String) :=
  let v := invoice.getV key
  if truthy v then
    match v with
    | Value.str s =>
      if pyIsAlnum (stripDashSpace s) then pure [] else pure [label ++ s]
    | _ => Except.error PyErr.attributeError
  else pure []

/-- `_check_formats`: `(errors, warnings)` appended, in source order. -/
def checkFormats (invoice : Record) (today : PyDate) :
    Except PyErr (List String × List String) := do
  let curErrs ← currencyErrs invoice
  let sellerWarns ← taxIdWarns invoice "seller_tax_id" "Seller tax ID format may be invalid: "
  let buyerWarns ← taxIdWarns invoice "buyer_tax_id" "Buyer tax ID format may be invalid: "
  pure (invoiceDateErrs invoice today ++ dueDateErrs invoice ++ curErrs,
    sellerWarns ++ buyerWarns)

/-- The Rule 1 message with its f-string interpolations. -/
def mismatchMsg (n t g : Decimal) : String :=
  "Total calculation mismatch: net (" ++ Decimal.decStr n ++ ") + tax (" ++
    Decimal.decStr t ++ ") != gross (" ++ Decimal.decStr g ++ "). Expected: " ++
    Decimal.decStr (n.add t)

/-- `for item in line_items` on an arbitrary value: Python iterates lists,
strings (as 1-char strings) and dicts (keys), and raises `TypeError`
otherwise. -/
def iterOf : Value → Except PyErr (List Value)
  | .list l => .ok l
  | .str s => .ok (s.data.map (fun c => Value.str (String.mk [c])))
  | .dict l => .ok (l.map (fun kv => Value.str kv.1))
  | _ => .error PyErr.typeError

/-- Rule 2's summation loop: skip unparseable (`None`) and falsy (zero)
line totals. -/
def sumLineTotals : List Value → Decimal → Except PyErr Decimal
  | [], acc => .ok acc
  | item :: rest, acc => do
    let v ← getKey item "line_total"
    let item_total ← toDecimal v
    let acc :=
      match item_total with
      | some d => if d.truthyb then acc.add d else acc
      | Option.none => acc
    sumLineTotals rest acc

/-- The Rule 4 warning message (1-based index). -/
def lineItemMsg (n : Nat) : String :=
  "Line item " ++ natStr n ++ ": quantity * unit_price != line_total"

/-- Rule 1 of `_check_business_rules`: totals identity within the 0.01
tolerance, when all three amounts parsed. -/
def rule1Errs (net_total tax_amount gross_total : Option Decimal) : List String :=
  match net_total, tax_amount, gross_total with
  | some n, some t, some g =>
    if ((n.add t).sub g).abs.gtb tol01 then [mismatchMsg n t g] else []
  | _, _, _ => []

/-- Rule 2 of `_check_business_rules`: line-items sum vs net total
(warning), only for a truthy `line_items` and a parsed net total. -/
def rule2Warns (invoice : Record) (net_total : Option Decimal) :
    Except PyErr (List String) :=
  let line_items := invoice.getVD "line_items" (Value.list [])
  if truthy line_items then
    match net_total with
    | some n => do
      let items ← iterOf line_items
      let s ← sumLineTotals items ⟨0, 0⟩
      pure (if (s.sub n).abs.gtb tol01 then
        ["Line items sum (" ++ Decimal.decStr s ++ ") does not match net total (" ++
          Decimal.decStr n ++ ")"] else [])
    | Option.none => pure []
  else pure []

/-- Rule 3 of `_check_business_rules`: negative re-check on the three
amount fields (re-parsing each). -/
def rule3Errs (invoice : Record) : Except PyErr (List String) :=
  ["net_total", "tax_amount", "gross_total"].foldlM
    (fun acc f => do
      let value ← toDecimal (invoice.getV f)
      pure (acc ++
        match value with
        | some d =>
          if d.ltb ⟨0, 0⟩ then
            ["Negative amount not allowed: " ++ f ++ " = " ++ Decimal.decStr d]
          else []
        | Option.none => []))
    []

/-- Rule 4's loop body for the item at 1-based position `n`: skipped unless
quantity, unit price and line total are all truthy; `Decimal(str(quantity))`
raises `InvalidOperation` on a truthy quantity whose string form is not
numeric. -/
def rule4Item (n : Nat) (item : Value) : Except PyErr (List String) := do
  let quantity ← getKey item "quantity"
  let unit_price ← toDecimal (← getKey item "unit_price")
  let line_total ← toDecimal (← getKey item "line_total")
  match unit_price, line_total with
  | some u, some t =>
    if truthy quantity && u.truthyb && t.truthyb then
      match parseDec (pyStrVal quantity) with
      | some qd =>
        pure (if ((qd.mul u).sub t).abs.gtb tol01 then [lineItemMsg n] else [])
      | Option.none => Except.error PyErr.invalidOperation
    else pure []
  | _, _ => pure []

/-- Rule 4's `enumerate` loop (`idx` is the 0-based position already
consumed). -/
def rule4Warns (idx : Nat) : List Value → Except PyErr (List String)
  | [] => .ok []
  | item :: rest => do
    let here ← rule4Item (idx + 1) item
    let restW ← rule4Warns (idx + 1) rest
    pure (here ++ restW)

/-- `_check_business_rules`: `(errors, warnings)` appended; Rule 4 iterates
`line_items` unconditionally, so a truthiness-false non-iterable still
raises `TypeError` there. -/
def checkBusinessRules (invoice : Record) : Except PyErr (List String × List String) := do
  let net_total ← toDecimal (invoice.getV "net_total")
  let tax_amount ← toDecimal (invoice.getV "tax_amount")
  let gross_total ← toDecimal (invoice.getV "gross_total")
  let rule1 := rule1Errs net_total tax_amount gross_total
  let rule2 ← rule2Warns invoice net_total
  let rule3 ← rule3Errs invoice
  let items4 ← iterOf (invoice.getVD "line_items" (Value.list []))
  let rule4 ← rule4Warns 0 items4
  pure (rule1 ++ rule3, rule2 ++ rule4)

/-- `_check_anomalies`: warnings only (but the gross re-parse can raise). -/
def checkAnomalies (invoice : Record) : Except PyErr (List String) := do
  let gross_total ← toDecimal (invoice.getV "gross_total")
  let w1 :=
    match gross_total with
    | some g =>
      if g.truthyb && g.gtb highAmountThreshold then
        ["Unusually high gross total: " ++ Decimal.decStr g ++ " (threshold: " ++
          Decimal.decStr highAmountThreshold ++ ")"]
      else []
    | Option.none => []
  let w2 := if truthy (invoice.getV "due_date") then [] else ["Due date is missing"]
  let w3 := if truthy (invoice.getV "seller_tax_id") then [] else ["Seller tax ID is missing"]
  let w4 := if truthy (invoice.getV "buyer_tax_id") then [] else ["Buyer tax ID is missing"]
  let w5 := if truthy (invoice.getV "line_items") then [] else ["No line items found in invoice"]
  pure (w1 ++ w2 ++ w3 ++ w4 ++ w5)

/-- `_check_duplicates`: runs only when the triple is truthy, stringifies a
non-string date, swallows oracle faults, and downgrades hits to warnings. -/
def checkDuplicates (oracle : Oracle) (invoice : Record) : List String :=
  let invoice_number := invoice.getV "invoice_number"
  let seller_name := invoice.getV "seller_name"
  let invoice_date := invoice.getV "invoice_date"
  if truthy invoice_number && truthy seller_name && truthy invoice_date then
    let dateStr :=
      match invoice_date with
      | Value.str s => s
      | v => pyStrVal v
    match oracle invoice_number seller_name dateStr with
    | some true =>
      ["Duplicate invoice detected: " ++ pyStrVal invoice_number ++ " from " ++
        pyStrVal seller_name ++ " on " ++ dateStr]
    | _ => []
  else []

/-- `InvoiceValidator.validate`, with the checks run in source order;
`today` stands for `date.today()`. -/
def validate (oracle : Oracle) (today : PyDate) (invoice : Record) :
    Except PyErr ValidationResult := do
  let invoice_id := invoiceIdOf invoice
  let e1 := checkRequiredFields invoice
  let (e2, w2) ← checkFormats invoice today
  let (e3, w3) ← checkBusinessRules invoice
  let w4 ← checkAnomalies invoice
  let w5 := checkDuplicates oracle invoice
  let errors := e1 ++ e2 ++ e3
  let warnings := w2 ++ w3 ++ w4 ++ w5
  pure ⟨invoice_id, errors.isEmpty, errors, warnings⟩

/-- The `error_counts[error] += 1` of `validate_batch` on a CPython dict:
bump in place, append new keys. -/
def bumpCount (counts : List (String × Nat)) (key : String) : List (String × Nat) :=
  match counts with
  | [] => [(key, 1)]
  | (k, n) :: rest => if k = key then (k, n + 1) :: rest else (k, n) :: bumpCount rest key

/-- The per-error tally accumulated over all results, in batch order. -/
def countErrors (results : List ValidationResult) : List (String × Nat) :=
  results.foldl (fun acc r => r.errors.foldl bumpCount acc) []

/-- `InvoiceValidator.validate_batch`. -/
def validateBatch (oracle : Oracle) (today : PyDate) (invoices : List Record) :
    Except PyErr BatchOutput := do
  let results ← invoices.mapM (validate oracle today)
  let error_counts := countErrors results
  let valid_count := (results.filter (fun r => r.is_valid)).length
  let invalid_count := results.length - valid_count
  pure ⟨⟨results.length, valid_count, invalid_count, error_counts⟩, results⟩

/-- The only duplicate-oracle query `validate` can make for a record:
present exactly when the number/seller/date triple is truthy. -/
def dupQuery (invoice : Record) : Option (Value × Value × String) :=
  let invoice_number := invoice.getV "invoice_number"
  let seller_name := invoice.getV "seller_name"
  let invoice_date := invoice.getV "invoice_date"
  if truthy invoice_number && truthy seller_name && truthy invoice_date then
    some (invoice_number, seller_name,
      match invoice_date with
      | Value.str s => s
      | v => pyStrVal v)
  else Option.none

/-! ## The amount normalizer (`extractor.py`, `_extract_with_regex`)

The separator-disambiguation step applied to every regex-matched amount
string before `float()`. -/

/-- Python `s.rindex(c)`: index of the last occurrence (callers guard on
containment). -/
def rindex (l : List Char) (c : Char) : Nat := l.length - 1 - l.reverse.indexOf c

/-- Python single-char `s.replace(c, "")`. -/
def removeChar (l : List Char) (c : Char) : List Char := l.filter (fun x => x ≠ c)

/-- Python single-char `s.replace(c, c')`. -/
def replaceChar (l : List Char) (c c' : Char) : List Char :=
  l.map (fun x => if x = c then c' else x)

/-- Python `s.split(c)` (never merges adjacent separators). -/
def pySplit (c : Char) : List Char → List (List Char)
  | [] => [[]]
  | x :: xs =>
    match pySplit c xs with
    | [] => [[]]
    | h :: t => if x = c then [] :: h :: t else (x :: h) :: t

/-- `parts[-1]`. -/
def lastOf (ls : List (List Char)) : List Char := ls.getLastD []

/-- The separator-normalization in `_extract_with_regex`'s amount loop:
decides which of `.`/`,` is the decimal separator and produces the
plain-dot string handed to `float()`. -/
def cleanAmount (amt : List Char) : List Char :=
  if amt.contains ',' && amt.contains '.' then
    if rindex amt ',' > rindex amt '.' then
      replaceChar (removeChar amt '.') ',' '.'
    else
      removeChar amt ','
  else if amt.contains ',' then
    if (lastOf (pySplit ',' amt)).length = 2 then
      replaceChar amt ',' '.'
    else
      removeChar amt ','
  else amt

/-- Modelled from the spec's words for §4.1: with both separators present,
the one occurring later in the string is the decimal point (each of its
occurrences becomes `.`) and the other is stripped as a thousands
separator; with only a comma, the comma is a decimal point exactly when
exactly two digits follow it (the characters after the last comma), and
otherwise a thousands separator to strip. -/
def specClean (amt : List Char) : List Char :=
  if amt.contains ',' && amt.contains '.' then
    if rindex amt ',' > rindex amt '.' then
      amt.filterMap (fun c =>
        if c = '.' then Option.none else if c = ',' then some '.' else some c)
    else
      amt.filterMap (fun c =>
        if c = ',' then Option.none else if c = '.' then some '.' else some c)
  else if amt.contains ',' then
    if ((amt.reverse.takeWhile (fun c => c ≠ ',')).reverse.length = 2 ∧
        (amt.reverse.takeWhile (fun c => c ≠ ',')).reverse.all Char.isDigit) then
      replaceChar amt ',' '.'
    else
      removeChar amt ','
  else amt

/-! ## Concrete fixtures (the conftest sample data, embedded) -/

/-- A duplicate oracle that reports "no duplicate" everywhere. -/
def oracle0 : Oracle := fun _ _ _ => some false

def today0 : PyDate := ⟨2026, 10, 12⟩

/-- `conftest.sample_invoice` (Python floats carried as their repr
decimals). -/
def sampleInvoice : Record :=
  [("invoice_number", .str "INV-001"),
   ("invoice_date", .str "2024-01-15"),
   ("due_date", .str "2024-02-15"),
   ("seller_name", .str "ABC Corp"),
   ("seller_address", .str "123 Business St"),
   ("seller_tax_id", .str "TAX123"),
   ("buyer_name", .str "XYZ Ltd"),
   ("buyer_address", .str "456 Commerce Ave"),
   ("buyer_tax_id", .str "TAX456"),
   ("currency", .str "USD"),
   ("net_total", .flt ⟨10000, 1⟩),
   ("tax_rate", .flt ⟨180, 1⟩),
   ("tax_amount", .flt ⟨1800, 1⟩),
   ("gross_total", .flt ⟨11800, 1⟩),
   ("line_items", .list [.dict [("description", .str "Product A"), ("quantity", .int 10),
      ("unit_price", .flt ⟨1000, 1⟩), ("line_total", .flt ⟨10000, 1⟩)]])]

def sampleResult : ValidationResult := ⟨"INV-001", true, [], []⟩

/-- The `test_validate_calculation_mismatch` record: 1000 + 200 ≠ 1100. -/
def mismatchInvoice : Record :=
  [("invoice_number", .str "INV-003"),
   ("invoice_date", .str "2024-01-15"),
   ("seller_name", .str "ABC Corp"),
   ("buyer_name", .str "XYZ Ltd"),
   ("currency", .str "USD"),
   ("net_total", .flt ⟨10000, 1⟩),
   ("tax_amount", .flt ⟨2000, 1⟩),
   ("gross_total", .flt ⟨11000, 1⟩)]

def mismatchResult : ValidationResult :=
  ⟨"INV-003", false,
   ["Total calculation mismatch: net (1000.0) + tax (200.0) != gross (1100.0). Expected: 1200.0"],
   ["Due date is missing", "Seller tax ID is missing", "Buyer tax ID is missing",
    "No line items found in invoice"]⟩

/-- A line item with parseable quantity (2), unit price (5) and a
parseable but zero line total. -/
def zeroTotalInvoice : Record :=
  [("invoice_number", .str "INV-7"),
   ("line_items", .list [.dict [("quantity", .int 2), ("unit_price", .int 5),
      ("line_total", .int 0)]])]

/-- A line item failing its arithmetic: 2 * 5 asserted against 20. -/
def badItemInvoice : Record :=
  [("invoice_number", .str "INV-8"),
   ("line_items", .list [.dict [("quantity", .int 2), ("unit_price", .int 5),
      ("line_total", .int 20)]])]

def badItemResult : ValidationResult :=
  ⟨"INV-8", false,
   ["Missing required field: invoice_date", "Missing required field: seller_name",
    "Missing required field: buyer_name", "Missing required field: currency",
    "Missing required field: net_total", "Missing required field: tax_amount",
    "Missing required field: gross_total"],
   ["Line item 1: quantity * unit_price != line_total", "Due date is missing",
    "Seller tax ID is missing", "Buyer tax ID is missing"]⟩

/-- A line item on which Rules 2 and 4 cannot raise: a dict whose unit
price and line total convert (or are absent), and whose quantity, if
truthy, has a numeric string form. -/
def itemOk (item : Value) : Bool :=
  match item with
  | Value.dict il =>
    (match toDecimal ((List.lookup "unit_price" il).getD Value.none) with
     | .ok _ => true
     | .error _ => false) &&
    (match toDecimal ((List.lookup "line_total" il).getD Value.none) with
     | .ok _ => true
     | .error _ => false) &&
    (!truthy ((List.lookup "quantity" il).getD Value.none) ||
      (parseDec (pyStrVal ((List.lookup "quantity" il).getD Value.none))).isSome)
  | _ => false

/-- A fully well-formed record carrying Decimal amounts. -/
def decimalInvoice : Record :=
  [("invoice_number", .str "INV-010"),
   ("invoice_date", .str "2024-01-15"),
   ("due_date", .str "2024-02-15"),
   ("seller_name", .str "ABC Corp"),
   ("buyer_name", .str "XYZ Ltd"),
   ("currency", .str "USD"),
   ("net_total", .dec ⟨100000, 2⟩),
   ("tax_amount", .dec ⟨18000, 2⟩),
   ("gross_total", .dec ⟨118000, 2⟩)]

/-- `test_validate_due_before_invoice`: every required field valid and the
totals exact, but the due date precedes the invoice date. -/
def dueBeforeInvoice : Record :=
  [("invoice_number", .str "INV-004"),
   ("invoice_date", .str "2024-02-15"),
   ("due_date", .str "2024-01-15"),
   ("seller_name", .str "ABC Corp"),
   ("buyer_name", .str "XYZ Ltd"),
   ("currency", .str "USD"),
   ("net_total", .flt ⟨10000, 1⟩),
   ("tax_amount", .flt ⟨1800, 1⟩),
   ("gross_total", .flt ⟨11800, 1⟩)]

/-- An oracle extensionally equal to `oracle0` but syntactically distinct. -/
def oracleAlt : Oracle := fun _ _ _ => if 0 = 1 then some true else some false

/-- `test_validate_future_date`: otherwise-valid record dated 2099-12-31. -/
def futureInvoice : Record :=
  [("invoice_number", .str "INV-FUTURE"),
   ("invoice_date", .str "2099-12-31"),
   ("seller_name", .str "ABC Corp"),
   ("buyer_name", .str "XYZ Ltd"),
   ("currency", .str "USD"),
   ("net_total", .flt ⟨10000, 1⟩),
   ("tax_amount", .flt ⟨1800, 1⟩),
   ("gross_total", .flt ⟨11800, 1⟩)]

/-- The batch output for `[sampleInvoice, mismatchInvoice]`. -/
def sampleBatchOutput : BatchOutput :=
  ⟨⟨2, 1, 1,
    [("Total calculation mismatch: net (1000.0) + tax (200.0) != gross (1100.0). Expected: 1200.0", 1)]⟩,
   [sampleResult, mismatchResult]⟩

/-- A record whose invoice number is blank (whitespace) but which names a
source file. -/
def blankNumberInvoice : Record :=
  [("invoice_number", .str "  "), ("source_file", .str "scan1.pdf")]

def blankNumberResult : ValidationResult :=
  ⟨"UNKNOWN_scan1.pdf", false,
   ["Empty required field: invoice_number", "Missing required field: invoice_date",
    "Missing required field: seller_name", "Missing required field: buyer_name",
    "Missing required field: currency", "Missing required field: net_total",
    "Missing required field: tax_amount", "Missing required field: gross_total"],
   ["Due date is missing", "Seller tax ID is missing", "Buyer tax ID is missing",
    "No line items found in invoice"]⟩

/-! ## String helper lemmas -/

theorem strData_append (a b : String) : (a ++ b).data = a.data ++ b.data := by
  cases a; cases b; rfl

theorem head_append {a : String} (b : String) {c : Char} (h : a.data.head? = some c) :
    (a ++ b).data.head? = some c := by
  rw [strData_append]
  cases ha : a.data with
  | nil => rw [ha] at h; cases h
  | cons x xs =>
    rw [ha] at h
    simp only [List.head?_cons, Option.some.injEq] at h
    subst h; rfl

theorem ne_of_head {a b : String} {c1 c2 : Char} (h1 : a.data.head? = some c1)
    (h2 : b.data.head? = some c2) (hne : c1 ≠ c2) : a ≠ b := by
  intro he
  subst he
  rw [h1] at h2
  exact hne (Option.some.inj h2)

theorem nth_append {a : String} (b : String) {i : Nat} {c : Char}
    (hi : i < a.data.length) (h : a.data[i]? = some c) :
    (a ++ b).data[i]? = some c := by
  rw [strData_append, List.getElem?_append, if_pos hi]
  exact h

theorem ne_of_nth {a b : String} {i : Nat} {c1 c2 : Char} (h1 : a.data[i]? = some c1)
    (h2 : b.data[i]? = some c2) (hne : c1 ≠ c2) : a ≠ b := by
  intro he
  subst he
  rw [h1] at h2
  exact hne (Option.some.inj h2)

theorem strings_cancel {a x y : String} (b : String)
    (h : a ++ x ++ b = a ++ y ++ b) : x = y := by
  have hd := congrArg String.data h
  simp only [strData_append, List.append_assoc] at hd
  exact String.ext (List.append_cancel_right (List.append_cancel_left hd))

/-! ## Message-shape lemmas: first characters distinguish the check
families, so exact-string membership can be localized to one check. -/

theorem mismatchMsg_head (n t g : Decimal) :
    (mismatchMsg n t g).data.head? = some 'T' := by
  unfold mismatchMsg
  repeat rw [String.append_assoc]
  exact head_append _ rfl

theorem lineItemMsg_head (n : Nat) : (lineItemMsg n).data.head? = some 'L' := by
  unfold lineItemMsg
  rw [String.append_assoc]
  exact head_append _ rfl

theorem lineItemMsg_nth9 (n : Nat) : (lineItemMsg n).data[9]? = some ' ' := by
  unfold lineItemMsg
  rw [String.append_assoc]
  exact nth_append _ (by decide) (by decide)

theorem lineItemMsg_inj {a b : Nat} (h : lineItemMsg a = lineItemMsg b) : a = b := by
  unfold lineItemMsg at h
  exact natStr_injective (strings_cancel _ h)

theorem fieldFinding_head {f : String} {v : Value} {s : String}
    (hf : fieldFinding f v = some s) :
    s.data.head? = some 'M' ∨ s.data.head? = some 'E' ∨ s.data.head? = some 'N' := by
  cases v <;> simp only [fieldFinding] at hf
  case none => cases hf; exact Or.inl (head_append _ rfl)
  case str s1 =>
    split at hf
    · cases hf; exact Or.inr (Or.inl (head_append _ rfl))
    · cases hf
  case int n =>
    split at hf
    · cases hf; exact Or.inr (Or.inr (head_append _ rfl))
    · cases hf
  case flt d =>
    split at hf
    · cases hf; exact Or.inr (Or.inr (head_append _ rfl))
    · cases hf
  case dec d =>
    split at hf
    · cases hf; exact Or.inr (Or.inr (head_append _ rfl))
    · cases hf
  all_goals exact Option.noConfusion hf

theorem mem_checkRequiredFields {inv : Record} {s : String}
    (h : s ∈ checkRequiredFields inv) :
    s.data.head? = some 'M' ∨ s.data.head? = some 'E' ∨ s.data.head? = some 'N' := by
  simp only [checkRequiredFields, List.mem_filterMap] at h
  obtain ⟨f, -, hf⟩ := h
  exact fieldFinding_head hf

theorem mem_invoiceDateErrs {inv : Record} {today : PyDate} {s : String}
    (h : s ∈ invoiceDateErrs inv today) : s.data.head? = some 'I' := by
  simp only [invoiceDateErrs] at h
  split at h
  · split at h
    · split at h
      · split at h
        · simp only [List.mem_singleton] at h; subst h; rfl
        · cases h
      · simp only [List.mem_singleton] at h; subst h; exact head_append _ rfl
    · simp only [List.mem_singleton] at h; subst h; exact head_append _ rfl
  · cases h

theorem mem_dueDateErrs {inv : Record} {s : String}
    (h : s ∈ dueDateErrs inv) :
    s.data.head? = some 'D' ∨ s.data.head? = some 'I' := by
  simp only [dueDateErrs] at h
  split at h
  · split at h
    · split at h
      · split at h
        · simp only [List.mem_singleton] at h; subst h; exact Or.inl rfl
        · cases h
      · simp only [List.mem_singleton] at h; subst h
        exact Or.inr (head_append _ rfl)
    · simp only [List.mem_singleton] at h; subst h
      exact Or.inr (head_append _ rfl)
  · cases h

theorem mem_currencyErrs {inv : Record} {l : List String} {s : String}
    (hok : currencyErrs inv = .ok l) (h : s ∈ l) : s.data.head? = some 'I' := by
  simp only [currencyErrs] at hok
  split at hok
  · split at hok
    · split at hok
      · cases hok; cases h
      · cases hok
        simp only [List.mem_singleton] at h; subst h
        rw [String.append_assoc]
        exact head_append _ rfl
    · cases hok
  · cases hok; cases h

theorem mem_taxIdWarns {inv : Record} {key label : String} {l : List String} {s : String}
    {c : Char} (hl : label.data.head? = some c)
    (hok : taxIdWarns inv key label = .ok l) (h : s ∈ l) : s.data.head? = some c := by
  simp only [taxIdWarns] at hok
  split at hok
  · split at hok
    · split at hok
      · cases hok; cases h
      · cases hok
        simp only [List.mem_singleton] at h; subst h
        exact head_append _ hl
    · cases hok
  · cases hok; cases h

/-! ## Monadic decompositions of the validator pipeline -/

theorem exceptBind_ok {ε α β : Type} {x : Except ε α} {f : α → Except ε β} {b : β}
    (h : (x >>= f) = .ok b) : ∃ a, x = .ok a ∧ f a = .ok b := by
  cases x with
  | ok a => exact ⟨a, rfl, h⟩
  | error e => exact Except.noConfusion h

theorem checkFormats_ok {inv : Record} {today : PyDate} {e2 w2 : List String}
    (h : checkFormats inv today = .ok (e2, w2)) :
    ∃ cur sw bw, currencyErrs inv = .ok cur ∧
      taxIdWarns inv "seller_tax_id" "Seller tax ID format may be invalid: " = .ok sw ∧
      taxIdWarns inv "buyer_tax_id" "Buyer tax ID format may be invalid: " = .ok bw ∧
      e2 = invoiceDateErrs inv today ++ dueDateErrs inv ++ cur ∧ w2 = sw ++ bw := by
  unfold checkFormats at h
  obtain ⟨cur, hc, h⟩ := exceptBind_ok h
  obtain ⟨sw, hs, h⟩ := exceptBind_ok h
  obtain ⟨bw, hb, h⟩ := exceptBind_ok h
  refine ⟨cur, sw, bw, hc, hs, hb, ?_, ?_⟩ <;>
    cases Except.ok.inj h <;> rfl

theorem checkBusinessRules_ok {inv : Record} {e3 w3 : List String}
    (h : checkBusinessRules inv = .ok (e3, w3)) :
    ∃ net tax gross r2 r3 items r4,
      toDecimal (inv.getV "net_total") = .ok net ∧
      toDecimal (inv.getV "tax_amount") = .ok tax ∧
      toDecimal (inv.getV "gross_total") = .ok gross ∧
      rule2Warns inv net = .ok r2 ∧ rule3Errs inv = .ok r3 ∧
      iterOf (inv.getVD "line_items" (Value.list [])) = .ok items ∧
      rule4Warns 0 items = .ok r4 ∧
      e3 = rule1Errs net tax gross ++ r3 ∧ w3 = r2 ++ r4 := by
  unfold checkBusinessRules at h
  obtain ⟨net, hn, h⟩ := exceptBind_ok h
  obtain ⟨tax, ht, h⟩ := exceptBind_ok h
  obtain ⟨gross, hg, h⟩ := exceptBind_ok h
  obtain ⟨r2, h2, h⟩ := exceptBind_ok h
  obtain ⟨r3, h3, h⟩ := exceptBind_ok h
  obtain ⟨items, hi, h⟩ := exceptBind_ok h
  obtain ⟨r4, h4, h⟩ := exceptBind_ok h
  refine ⟨net, tax, gross, r2, r3, items, r4, hn, ht, hg, h2, h3, hi, h4, ?_, ?_⟩ <;>
    cases Except.ok.inj h <;> rfl

theorem checkAnomalies_ok {inv : Record} {w4 : List String}
    (h : checkAnomalies inv = .ok w4) :
    ∃ gross, toDecimal (inv.getV "gross_total") = .ok gross ∧
      w4 = (match gross with
        | some g =>
          if g.truthyb && g.gtb highAmountThreshold then
            ["Unusually high gross total: " ++ Decimal.decStr g ++ " (threshold: " ++
              Decimal.decStr highAmountThreshold ++ ")"]
          else []
        | Option.none => []) ++
        (if truthy (inv.getV "due_date") then [] else ["Due date is missing"]) ++
        (if truthy (inv.getV "seller_tax_id") then [] else ["Seller tax ID is missing"]) ++
        (if truthy (inv.getV "buyer_tax_id") then [] else ["Buyer tax ID is missing"]) ++
        (if truthy (inv.getV "line_items") then [] else ["No line items found in invoice"]) := by
  unfold checkAnomalies at h
  obtain ⟨gross, hg, h⟩ := exceptBind_ok h
  exact ⟨gross, hg, (Except.ok.inj h).symm⟩

theorem mem_rule1 {net tax gross : Option Decimal} {s : String}
    (h : s ∈ rule1Errs net tax gross) : s.data.head? = some 'T' := by
  unfold rule1Errs at h
  split at h
  · split at h
    · simp only [List.mem_singleton] at h; subst h; exact mismatchMsg_head _ _ _
    · cases h
  · cases h

theorem rule1_mem_iff {n t g : Decimal} :
    mismatchMsg n t g ∈ rule1Errs (some n) (some t) (some g) ↔
      ((n.add t).sub g).abs.gtb tol01 = true := by
  unfold rule1Errs
  split <;> simp_all

theorem mem_rule2 {inv : Record} {net : Option Decimal} {r2 : List String} {s : String}
    (hok : rule2Warns inv net = .ok r2) (h : s ∈ r2) :
    s.data.head? = some 'L' ∧ s.data[9]? = some 's' := by
  simp only [rule2Warns] at hok
  split at hok
  · split at hok
    · obtain ⟨items, hi, hok⟩ := exceptBind_ok hok
      obtain ⟨sum, hs, hok⟩ := exceptBind_ok hok
      cases Except.ok.inj hok
      split at h
      · simp only [List.mem_singleton] at h; subst h
        repeat rw [String.append_assoc]
        exact ⟨head_append _ rfl, nth_append _ (by decide) (by decide)⟩
      · cases h
    · cases hok; cases h
  · cases hok; cases h

theorem mem_rule3 {inv : Record} {r3 : List String} {s : String}
    (hok : rule3Errs inv = .ok r3) (h : s ∈ r3) : s.data.head? = some 'N' := by
  have hform : ∀ (v : Option Decimal) (f : String) (t : String),
      t ∈ (match v with
        | some d =>
          if d.ltb ⟨0, 0⟩ then
            ["Negative amount not allowed: " ++ f ++ " = " ++ Decimal.decStr d]
          else []
        | Option.none => ([] : List String)) → t.data.head? = some 'N' := by
    intro v f t ht
    rcases v with _ | d
    · cases ht
    · simp only at ht
      split at ht
      · cases ht with
        | head =>
          repeat rw [String.append_assoc]
          exact head_append _ rfl
        | tail _ h2 => cases h2
      · cases ht
  unfold rule3Errs at hok
  simp only [List.foldlM] at hok
  obtain ⟨acc1, h1, hok⟩ := exceptBind_ok hok
  obtain ⟨d1, hd1, h1⟩ := exceptBind_ok h1
  cases Except.ok.inj h1
  obtain ⟨acc2, h2, hok⟩ := exceptBind_ok hok
  obtain ⟨d2, hd2, h2⟩ := exceptBind_ok h2
  cases Except.ok.inj h2
  obtain ⟨acc3, h3, hok⟩ := exceptBind_ok hok
  obtain ⟨d3, hd3, h3⟩ := exceptBind_ok h3
  cases Except.ok.inj h3
  cases Except.ok.inj hok
  simp only [List.nil_append, List.mem_append] at h
  rcases h with (h | h) | h
  · exact hform d1 _ _ h
  · exact hform d2 _ _ h
  · exact hform d3 _ _ h

theorem rule4Item_ok_mem {n : Nat} {item : Value} {l : List String} {s : String}
    (hok : rule4Item n item = .ok l) (h : s ∈ l) : s = lineItemMsg n := by
  unfold rule4Item at hok
  obtain ⟨q, hq, hok⟩ := exceptBind_ok hok
  obtain ⟨uv, huv, hok⟩ := exceptBind_ok hok
  obtain ⟨u, hu, hok⟩ := exceptBind_ok hok
  obtain ⟨tv, htv, hok⟩ := exceptBind_ok hok
  obtain ⟨t, ht, hok⟩ := exceptBind_ok hok
  split at hok
  · split at hok
    · split at hok
      · cases Except.ok.inj hok
        split at h
        · cases h with
          | head => rfl
          | tail _ h2 => cases h2
        · cases h
      · exact Except.noConfusion hok
    · cases Except.ok.inj hok; cases h
  · cases Except.ok.inj hok; cases h

theorem rule4Warns_ok_iff : ∀ {items : List Value} {idx : Nat} {ws : List String},
    rule4Warns idx items = .ok ws → ∀ {m : String},
    (m ∈ ws ↔ ∃ j, ∃ hj : j < items.length, ∃ l,
      rule4Item (idx + j + 1) (items.get ⟨j, hj⟩) = .ok l ∧ m ∈ l) := by
  intro items
  induction items with
  | nil =>
    intro idx ws h m
    cases h
    simp
  | cons item rest ih =>
    intro idx ws h m
    unfold rule4Warns at h
    obtain ⟨here, hh, h⟩ := exceptBind_ok h
    obtain ⟨restW, hr, h⟩ := exceptBind_ok h
    cases Except.ok.inj h
    constructor
    · intro hm
      rcases List.mem_append.mp hm with hm | hm
      · exact ⟨0, by simp, here, by simpa using hh, hm⟩
      · obtain ⟨j, hj, l, hl, hml⟩ := (ih hr).mp hm
        refine ⟨j + 1, by simpa using hj, l, ?_, hml⟩
        have : idx + (j + 1) + 1 = idx + 1 + j + 1 := by omega
        rw [this]
        simpa using hl
    · rintro ⟨j, hj, l, hl, hml⟩
      cases j with
      | zero =>
        apply List.mem_append.mpr
        left
        simp only [List.get] at hl
        have : idx + 0 + 1 = idx + 1 := by omega
        rw [this] at hl
        rw [hh] at hl
        cases Except.ok.inj hl
        exact hml
      | succ j =>
        apply List.mem_append.mpr
        right
        apply (ih hr).mpr
        refine ⟨j, by simpa using hj, l, ?_, hml⟩
        have : idx + 1 + j + 1 = idx + (j + 1) + 1 := by omega
        rw [this]
        simpa using hl

theorem mem_checkDuplicates {o : Oracle} {inv : Record} {s : String}
    (h : s ∈ checkDuplicates o inv) : s.data.head? = some 'D' := by
  simp only [checkDuplicates] at h
  split at h
  · split at h
    · simp only [List.mem_singleton] at h; subst h
      repeat rw [String.append_assoc]
      exact head_append _ rfl
    · cases h
  · cases h

theorem mem_checkAnomalies {inv : Record} {w4 : List String} {s : String}
    (hok : checkAnomalies inv = .ok w4) (h : s ∈ w4) :
    s.data.head? = some 'U' ∨ s.data.head? = some 'D' ∨ s.data.head? = some 'S' ∨
      s.data.head? = some 'B' ∨ s.data.head? = some 'N' := by
  obtain ⟨gross, hg, hw⟩ := checkAnomalies_ok hok
  subst hw
  simp only [List.mem_append] at h
  rcases h with ((((h | h) | h) | h) | h)
  · rcases gross with _ | g
    · cases h
    · simp only at h
      split at h
      · cases h with
        | head =>
          repeat rw [String.append_assoc]
          exact Or.inl (head_append _ rfl)
        | tail _ h2 => cases h2
      · cases h
  · split at h
    · cases h
    · simp only [List.mem_singleton] at h; subst h; exact Or.inr (Or.inl rfl)
  · split at h
    · cases h
    · simp only [List.mem_singleton] at h; subst h; exact Or.inr (Or.inr (Or.inl rfl))
  · split at h
    · cases h
    · simp only [List.mem_singleton] at h; subst h
      exact Or.inr (Or.inr (Or.inr (Or.inl rfl)))
  · split at h
    · cases h
    · simp only [List.mem_singleton] at h; subst h
      exact Or.inr (Or.inr (Or.inr (Or.inr rfl)))

theorem validate_ok {o : Oracle} {today : PyDate} {inv : Record} {res : ValidationResult}
    (h : validate o today inv = .ok res) :
    ∃ e2 w2 e3 w3 w4,
      checkFormats inv today = .ok (e2, w2) ∧
      checkBusinessRules inv = .ok (e3, w3) ∧
      checkAnomalies inv = .ok w4 ∧
      res.invoice_id = invoiceIdOf inv ∧
      res.errors = checkRequiredFields inv ++ e2 ++ e3 ∧
      res.warnings = w2 ++ w3 ++ w4 ++ checkDuplicates o inv ∧
      res.is_valid = res.errors.isEmpty := by
  unfold validate at h
  obtain ⟨⟨e2, w2⟩, hf, h⟩ := exceptBind_ok h
  obtain ⟨⟨e3, w3⟩, hb, h⟩ := exceptBind_ok h
  obtain ⟨w4, ha, h⟩ := exceptBind_ok h
  cases Except.ok.inj h
  exact ⟨e2, w2, e3, w3, w4, hf, hb, ha, rfl, rfl, rfl, rfl⟩

theorem head_clash {s : String} {c1 c2 : Char} (h1 : s.data.head? = some c1)
    (h2 : s.data.head? = some c2) (hne : c1 ≠ c2) : False := by
  rw [h1] at h2
  exact hne (Option.some.inj h2)

theorem val_neg_iff (d : Decimal) : d.val < 0 ↔ d.man < 0 := by
  constructor
  · intro h
    by_contra hc
    push_neg at hc
    have : (0 : ℚ) ≤ d.val := by
      apply div_nonneg _ (le_of_lt (Decimal.pow10_pos d.exp))
      exact_mod_cast hc
    linarith
  · intro h
    apply div_neg_of_neg_of_pos _ (Decimal.pow10_pos d.exp)
    exact_mod_cast h

theorem tol_bridge (n t g : Decimal) :
    ((n.add t).sub g).abs.gtb tol01 = true ↔ 1/100 < |n.val + t.val - g.val| := by
  rw [Decimal.gtb_iff, Decimal.val_abs, Decimal.val_sub, Decimal.val_add]
  have htol : tol01.val = 1/100 := by
    unfold tol01 Decimal.val
    norm_num
  rw [htol]

theorem mismatchGap :
    (1 : ℚ)/100 < |(⟨10000, 1⟩ : Decimal).val + (⟨2000, 1⟩ : Decimal).val -
      (⟨11000, 1⟩ : Decimal).val| := by
  norm_num [Decimal.val]

theorem nth_clash {s : String} {i : Nat} {c1 c2 : Char} (h1 : s.data[i]? = some c1)
    (h2 : s.data[i]? = some c2) (hne : c1 ≠ c2) : False := by
  rw [h1] at h2
  exact hne (Option.some.inj h2)

theorem tol_bridge_mul (q u t : Decimal) :
    ((q.mul u).sub t).abs.gtb tol01 = true ↔ 1/100 < |q.val * u.val - t.val| := by
  rw [Decimal.gtb_iff, Decimal.val_abs, Decimal.val_sub, Decimal.val_mul]
  have htol : tol01.val = 1/100 := by
    unfold tol01 Decimal.val
    norm_num
  rw [htol]

theorem itemGap :
    (1 : ℚ)/100 < |(⟨2, 0⟩ : Decimal).val * (⟨5, 0⟩ : Decimal).val -
      (⟨20, 0⟩ : Decimal).val| := by
  norm_num [Decimal.val]

/-- Evaluating Rule 4's loop body on a dict item whose three fields are
truthy and parse. -/
theorem rule4Item_eval {n : Nat} {il : List (String × Value)} {qv : Value}
    {qd u t : Decimal}
    (hq : (List.lookup "quantity" il).getD Value.none = qv)
    (hqt : truthy qv = true) (hqd : parseDec (pyStrVal qv) = some qd)
    (hu : toDecimal ((List.lookup "unit_price" il).getD Value.none) = .ok (some u))
    (hut : u.truthyb = true)
    (hlt : toDecimal ((List.lookup "line_total" il).getD Value.none) = .ok (some t))
    (htt : t.truthyb = true) :
    rule4Item n (Value.dict il) =
      .ok (if ((qd.mul u).sub t).abs.gtb tol01 then [lineItemMsg n] else []) := by
  unfold rule4Item getKey
  simp only [hq, hu, hlt, hqt, hut, htt, hqd, bind, Except.bind, Bool.and_self,
    if_true, pure, Except.pure]

/-- The messages Rule 4 can put into the warnings list of a completed
validation, located inside `res.warnings`. -/
theorem mem_warnings_cases {o : Oracle} {today : PyDate} {inv : Record}
    {res : ValidationResult} {e2 w2 e3 w3 w4 : List String} {s : String}
    (hf : checkFormats inv today = .ok (e2, w2))
    (hb : checkBusinessRules inv = .ok (e3, w3))
    (ha : checkAnomalies inv = .ok w4)
    (hw : res.warnings = w2 ++ w3 ++ w4 ++ checkDuplicates o inv)
    (hm : s ∈ res.warnings) :
    s ∈ w2 ∨ s ∈ w3 ∨ s ∈ w4 ∨ s ∈ checkDuplicates o inv := by
  rw [hw] at hm
  rcases List.mem_append.mp hm with hm | hm
  · rcases List.mem_append.mp hm with hm | hm
    · rcases List.mem_append.mp hm with hm | hm
      · exact Or.inl hm
      · exact Or.inr (Or.inl hm)
    · exact Or.inr (Or.inr (Or.inl hm))
  · exact Or.inr (Or.inr (Or.inr hm))

theorem mapM_ok_length_get {α β : Type} (f : α → Except PyErr β) :
    ∀ {l : List α} {r : List β}, l.mapM f = .ok r →
      r.length = l.length ∧
      ∀ i (hi : i < l.length) (hr : i < r.length),
        f (l.get ⟨i, hi⟩) = .ok (r.get ⟨i, hr⟩) := by
  intro l
  induction l with
  | nil =>
    intro r h
    rw [List.mapM_nil] at h
    cases Except.ok.inj h
    exact ⟨rfl, fun i hi => by simp at hi⟩
  | cons a l ih =>
    intro r h
    rw [List.mapM_cons] at h
    obtain ⟨b, hb, h⟩ := exceptBind_ok h
    obtain ⟨bs, hbs, h⟩ := exceptBind_ok h
    cases Except.ok.inj h
    obtain ⟨hlen, hget⟩ := ih hbs
    refine ⟨by simp [hlen], ?_⟩
    intro i hi hr
    cases i with
    | zero => exact hb
    | succ i =>
      simp only [List.get]
      exact hget i (by simpa using hi) (by simpa using hr)

theorem bumpCount_lookup (counts : List (String × Nat)) (key s : String) :
    ((bumpCount counts key).lookup s).getD 0 =
      (counts.lookup s).getD 0 + (if s = key then 1 else 0) := by
  induction counts with
  | nil =>
    by_cases hsk : s = key
    · rw [if_pos hsk]
      subst hsk
      simp [bumpCount, List.lookup]
    · rw [if_neg hsk]
      simp [bumpCount, List.lookup, beq_eq_false_iff_ne.mpr hsk]
  | cons kv rest ih =>
    obtain ⟨k, n⟩ := kv
    simp only [bumpCount]
    by_cases hk : k = key
    · rw [if_pos hk]
      subst hk
      by_cases hsk : s = k
      · rw [if_pos hsk]
        subst hsk
        simp [List.lookup]
      · rw [if_neg hsk]
        simp [List.lookup, beq_eq_false_iff_ne.mpr hsk]
    · rw [if_neg hk]
      by_cases hsk : s = k
      · subst hsk
        rw [if_neg (fun hc => hk hc)]
        simp [List.lookup]
      · simp only [List.lookup, beq_eq_false_iff_ne.mpr hsk]
        exact ih

theorem foldl_bump_lookup : ∀ (errs : List String) (acc : List (String × Nat)) (s : String),
    ((errs.foldl bumpCount acc).lookup s).getD 0 = (acc.lookup s).getD 0 + errs.count s := by
  intro errs
  induction errs with
  | nil => intro acc s; simp
  | cons e es ih =>
    intro acc s
    simp only [List.foldl_cons, ih, bumpCount_lookup]
    by_cases hse : s = e
    · subst hse
      simp [List.count_cons]
      omega
    · simp [List.count_cons, hse, beq_eq_false_iff_ne.mpr (fun hc => hse hc.symm)]

theorem countErrors_lookup (results : List ValidationResult) (s : String) :
    ((countErrors results).lookup s).getD 0 =
      ((results.map (fun r => r.errors)).flatten.count s) := by
  suffices hgen : ∀ (rs : List ValidationResult) (acc : List (String × Nat)),
      ((rs.foldl (fun acc r => r.errors.foldl bumpCount acc) acc).lookup s).getD 0 =
        (acc.lookup s).getD 0 + ((rs.map (fun r => r.errors)).flatten.count s) by
    have := hgen results []
    simpa [countErrors] using this
  intro rs
  induction rs with
  | nil => intro acc; simp
  | cons r rest ih =>
    intro acc
    simp only [List.foldl_cons, ih, foldl_bump_lookup, List.map_cons, List.flatten_cons,
      List.count_append]
    omega

/-! ## Amount-normalizer lemmas (C6) -/

theorem germanClean (amt : List Char) :
    replaceChar (removeChar amt '.') ',' '.' =
      amt.filterMap (fun c =>
        if c = '.' then Option.none else if c = ',' then some '.' else some c) := by
  induction amt with
  | nil => rfl
  | cons x xs ih =>
    by_cases hx : x = '.'
    · subst hx
      simpa [removeChar, replaceChar, List.filter_cons, List.filterMap_cons] using ih
    · by_cases hx2 : x = ','
      · subst hx2
        simpa [removeChar, replaceChar, List.filter_cons, List.filterMap_cons] using ih
      · simpa [removeChar, replaceChar, List.filter_cons, List.filterMap_cons, hx, hx2]
          using ih

theorem englishClean (amt : List Char) :
    removeChar amt ',' =
      amt.filterMap (fun c =>
        if c = ',' then Option.none else if c = '.' then some '.' else some c) := by
  induction amt with
  | nil => rfl
  | cons x xs ih =>
    by_cases hx : x = ','
    · subst hx
      simpa [removeChar, List.filter_cons, List.filterMap_cons] using ih
    · by_cases hx2 : x = '.'
      · subst hx2
        simpa [removeChar, List.filter_cons, List.filterMap_cons, hx] using ih
      · simpa [removeChar, List.filter_cons, List.filterMap_cons, hx, hx2] using ih

theorem takeWhile_append_one (p : Char → Bool) (l : List Char) (a : Char) :
    (l ++ [a]).takeWhile p =
      if l.all p then l ++ [a].takeWhile p else l.takeWhile p := by
  induction l with
  | nil => simp
  | cons x xs ih =>
    by_cases hx : p x
    · simp only [List.cons_append, List.takeWhile_cons, hx, List.all_cons, ih,
        Bool.true_and, if_true]
      split <;> simp
    · simp [List.takeWhile_cons, List.all_cons, hx]

theorem takeWhile_all {p : Char → Bool} : ∀ {l : List Char},
    l.all p = true → l.takeWhile p = l := by
  intro l
  induction l with
  | nil => intro _; rfl
  | cons x xs ih =>
    intro h
    rw [List.all_cons, Bool.and_eq_true] at h
    rw [List.takeWhile_cons, if_pos h.1, ih h.2]

theorem pySplit_ne_nil (c : Char) : ∀ l : List Char, pySplit c l ≠ [] := by
  intro l
  cases l with
  | nil => simp [pySplit]
  | cons x xs =>
    cases hs : pySplit c xs with
    | nil => simp [pySplit, hs]
    | cons h t =>
      by_cases hx : x = c <;> simp [pySplit, hs, hx]

/-- Combined invariant for the split: the last part is the suffix after the
last separator, and the split is a single part exactly when there is no
separator. -/
theorem pySplit_spec (c : Char) : ∀ l : List Char,
    lastOf (pySplit c l) = (l.reverse.takeWhile (fun x => x ≠ c)).reverse ∧
      ((pySplit c l).length = 1 ↔ l.contains c = false) := by
  intro l
  induction l with
  | nil => simp [pySplit, lastOf]
  | cons x xs ih =>
    obtain ⟨ih1, ih2⟩ := ih
    cases hs : pySplit c xs with
    | nil => exact absurd hs (pySplit_ne_nil c xs)
    | cons h t =>
      rw [hs] at ih1 ih2
      by_cases hx : x = c
      · constructor
        · have hstep : lastOf (pySplit c (x :: xs)) = lastOf (h :: t) := by
            simp only [pySplit, hs, if_pos hx]
            rfl
          rw [hstep, ih1, List.reverse_cons, takeWhile_append_one]
          have hpx : ([x].takeWhile (fun y => decide (y ≠ c))) = [] := by
            simp [List.takeWhile_cons, hx]
          split
          · rename_i hall
            rw [hpx, List.append_nil]
            rw [takeWhile_all hall]
          · rfl
        · constructor
          · intro hlen
            rw [show pySplit c (x :: xs) = [] :: h :: t from by
              simp only [pySplit, hs, if_pos hx]] at hlen
            simp at hlen
          · intro hcon
            rw [List.contains_cons] at hcon
            have hb : (c == x) = true := by rw [hx, beq_self_eq_true]
            rw [hb] at hcon
            simp at hcon
      · have hstep : pySplit c (x :: xs) = (x :: h) :: t := by
          simp only [pySplit, hs, if_neg hx]
        rw [hstep]
        have hcon_eq : (x :: xs).contains c = xs.contains c := by
          rw [List.contains_cons,
            beq_eq_false_iff_ne.mpr (fun hc => hx hc.symm), Bool.false_or]
        constructor
        · cases t with
          | nil =>
            have hnos : xs.contains c = false := ih2.mp rfl
            have hall : xs.reverse.all (fun y => decide (y ≠ c)) = true := by
              rw [List.all_eq_true]
              intro y hy
              rw [List.mem_reverse] at hy
              have hyc : ¬ y = c := by
                intro hc
                rw [hc] at hy
                have hct : xs.contains c = true := by simpa using hy
                rw [hnos] at hct
                cases hct
              simp [hyc]
            show x :: h = _
            have hh : h = xs := by
              have hl1 : lastOf [h] = h := rfl
              rw [hl1] at ih1
              rw [ih1, takeWhile_all hall, List.reverse_reverse]
            rw [hh, List.reverse_cons, takeWhile_append_one, if_pos hall]
            have hpx : ([x].takeWhile (fun y => decide (y ≠ c))) = [x] := by
              simp [List.takeWhile_cons, hx]
            rw [hpx, List.reverse_append]
            simp
          | cons t0 t1 =>
            have hlast : lastOf ((x :: h) :: t0 :: t1) = lastOf (h :: t0 :: t1) := rfl
            rw [hlast, ih1]
            have hcon : xs.contains c = true := by
              cases hb : xs.contains c with
              | false =>
                have := ih2.mpr hb
                simp at this
              | true => rfl
            have hnall : xs.reverse.all (fun y => decide (y ≠ c)) = false := by
              cases hb : xs.reverse.all (fun y => decide (y ≠ c)) with
              | false => rfl
              | true =>
                rw [List.all_eq_true] at hb
                have hmem : c ∈ xs.reverse := by
                  rw [List.mem_reverse]
                  simpa using hcon
                have := hb c hmem
                simp at this
            rw [List.reverse_cons, takeWhile_append_one, if_neg (by rw [hnall]; simp)]
        · rw [hcon_eq]
          constructor
          · intro hlen
            apply ih2.mp
            simpa using hlen
          · intro hcon
            have := ih2.mpr hcon
            simpa using this

theorem suffix_all_digits {amt : List Char}
    (halpha : amt.all (fun c => c.isDigit || c = '.' || c = ',') = true)
    (hnodot : amt.contains '.' = false) :
    ((amt.reverse.takeWhile (fun c => c ≠ ',')).reverse).all Char.isDigit = true := by
  rw [List.all_eq_true]
  intro c hc
  rw [List.mem_reverse] at hc
  have hp := List.mem_takeWhile_imp hc
  have hmem : c ∈ amt := by
    rw [← List.mem_reverse]
    exact (List.takeWhile_sublist _).subset hc
  rw [List.all_eq_true] at halpha
  have halc := halpha c hmem
  have hnc : ¬ c = ',' := by simpa using hp
  have hnd : ¬ c = '.' := by
    intro hcd
    rw [hcd] at hmem
    have hct : amt.contains '.' = true := by simpa using hmem
    rw [hnodot] at hct
    cases hct
  simpa [hnc, hnd] using halc

/-! ## Lemmas for a fully well-formed record (C5) -/

theorem not_whitespace_of_digit {c : Char} (h : c.isDigit = true) :
    c.isWhitespace = false := by
  cases hw : c.isWhitespace with
  | false => rfl
  | true =>
    unfold Char.isWhitespace at hw
    simp only [Bool.or_eq_true, decide_eq_true_eq] at hw
    rcases hw with ((h1 | h2) | h3) | h4 <;>
      first
      | (rw [h1] at h; cases h)
      | (rw [h2] at h; cases h)
      | (rw [h3] at h; cases h)
      | (rw [h4] at h; cases h)

theorem isoParse_not_blank {s : String} {d : PyDate} (h : isoParse s = some d) :
    isBlank s = false := by
  unfold isoParse isoParseL at h
  unfold isBlank
  split at h
  · rename_i c1 c2 c3 c4 c5 c6 c7 c8 c9 c10 heq
    split at h
    · rename_i hdig
      simp only [Bool.and_eq_true, decide_eq_true_eq] at hdig
      have hy1 : c1.isDigit = true := hdig.1.1.1.1.1.1.1.1.1
      simp [heq, not_whitespace_of_digit hy1]
    · cases h
  · cases h

theorem truthy_of_isBlank_false {s : String} (h : isBlank s = false) :
    truthy (Value.str s) = true := by
  unfold truthy
  cases hd : s.data with
  | nil =>
    unfold isBlank at h
    rw [hd] at h
    simp at h
  | cons x xs => simp [hd]

theorem dec_nonneg_ltb {d : Decimal} (h : 0 ≤ d.man) : d.ltb ⟨0, 0⟩ = false := by
  unfold Decimal.ltb
  simp only [pow_zero, mul_one, zero_mul, decide_eq_false_iff_not, not_lt]
  exact h

theorem checkRequired_nil {inv : Record} {ns ds ss bs cs : String} {n t g : Decimal}
    (hinvnum : inv.getV "invoice_number" = .str ns) (hnsb : isBlank ns = false)
    (hdate : inv.getV "invoice_date" = .str ds) (hdsb : isBlank ds = false)
    (hseller : inv.getV "seller_name" = .str ss) (hssb : isBlank ss = false)
    (hbuyer : inv.getV "buyer_name" = .str bs) (hbsb : isBlank bs = false)
    (hcur : inv.getV "currency" = .str cs) (hcsb : isBlank cs = false)
    (hnet : inv.getV "net_total" = .dec n) (hn0 : ¬ n.man < 0)
    (htax : inv.getV "tax_amount" = .dec t) (ht0 : ¬ t.man < 0)
    (hgross : inv.getV "gross_total" = .dec g) (hg0 : ¬ g.man < 0) :
    checkRequiredFields inv = [] := by
  unfold checkRequiredFields requiredFields
  simp only [List.filterMap_cons, List.filterMap_nil, hinvnum, hdate, hseller, hbuyer,
    hcur, hnet, htax, hgross, fieldFinding, hnsb, hdsb, hssb, hbsb, hcsb]
  simp [hn0, ht0, hg0]

theorem normDate_str {s : String} {d : PyDate} (h : isoParse s = some d) :
    normDate (Value.str s) = some (Value.date d) := by
  show Option.map Value.date (isoParse s) = some (Value.date d)
  rw [h]
  rfl

theorem pyLtV_dates (a b : PyDate) :
    pyLtV (Value.date a) (Value.date b) = some (dateLt a b) := rfl

theorem invoiceDateErrs_nil {inv : Record} {today : PyDate} {ds : String} {d : PyDate}
    (hdate : inv.getV "invoice_date" = .str ds) (hdp : isoParse ds = some d)
    (hfut : dateLt today d = false) : invoiceDateErrs inv today = [] := by
  simp only [invoiceDateErrs, hdate]
  rw [truthy_of_isBlank_false (isoParse_not_blank hdp), if_pos rfl, normDate_str hdp]
  simp only [pyLtV_dates, hfut, Bool.false_eq_true, if_false]

theorem dueDateErrs_nil {inv : Record} {ds : String} {d : PyDate}
    (hdate : inv.getV "invoice_date" = .str ds) (hdp : isoParse ds = some d)
    (hdue : inv.getV "due_date" = Value.none ∨
      ∃ us ud, inv.getV "due_date" = .str us ∧ isoParse us = some ud ∧
        dateLt ud d = false) :
    dueDateErrs inv = [] := by
  rcases hdue with hnone | ⟨us, ud, hus, hup, hlt⟩
  · simp only [dueDateErrs, hnone, hdate]
    rfl
  · simp only [dueDateErrs, hus, hdate]
    rw [truthy_of_isBlank_false (isoParse_not_blank hdp),
      truthy_of_isBlank_false (isoParse_not_blank hup), Bool.and_self, if_pos rfl,
      normDate_str hup, normDate_str hdp]
    simp only [pyLtV_dates, hlt, Bool.false_eq_true, if_false]

theorem currencyErrs_nil {inv : Record} {cs : String}
    (hcur : inv.getV "currency" = .str cs) (hcsb : isBlank cs = false)
    (hcsa : allowedCurrencies.contains (pyUpper cs) = true) :
    currencyErrs inv = .ok [] := by
  simp only [currencyErrs, hcur]
  rw [truthy_of_isBlank_false hcsb, if_pos rfl, hcsa]
  rfl

theorem taxIdWarns_ok {inv : Record} {key : String} (label : String)
    (h : inv.getV key = Value.none ∨ ∃ s1, inv.getV key = .str s1) :
    ∃ w, taxIdWarns inv key label = .ok w := by
  rcases h with h | ⟨s1, h⟩ <;> simp only [taxIdWarns, h]
  · exact ⟨[], rfl⟩
  · by_cases ht : truthy (Value.str s1) = true
    · rw [if_pos ht]
      refine ⟨if pyIsAlnum (stripDashSpace s1) then [] else [label ++ s1], ?_⟩
      split <;> rfl
    · rw [if_neg ht]
      exact ⟨[], rfl⟩

theorem checkFormats_clean {inv : Record} {today : PyDate}
    (h1 : invoiceDateErrs inv today = [])
    (h2 : dueDateErrs inv = []) (h3 : currencyErrs inv = .ok [])
    (hst : inv.getV "seller_tax_id" = Value.none ∨
      ∃ s1, inv.getV "seller_tax_id" = .str s1)
    (hbt : inv.getV "buyer_tax_id" = Value.none ∨
      ∃ s2, inv.getV "buyer_tax_id" = .str s2) :
    ∃ w, checkFormats inv today = .ok ([], w) := by
  obtain ⟨w1, hw1⟩ := taxIdWarns_ok "Seller tax ID format may be invalid: " hst
  obtain ⟨w2, hw2⟩ := taxIdWarns_ok "Buyer tax ID format may be invalid: " hbt
  refine ⟨w1 ++ w2, ?_⟩
  unfold checkFormats
  rw [h3, hw1, hw2]
  simp [bind, Except.bind, h1, h2, pure, Except.pure]

theorem itemOk_parts {il : List (String × Value)}
    (h : itemOk (Value.dict il) = true) :
    (∃ uo, toDecimal ((List.lookup "unit_price" il).getD Value.none) = .ok uo) ∧
    (∃ tdo, toDecimal ((List.lookup "line_total" il).getD Value.none) = .ok tdo) ∧
    (truthy ((List.lookup "quantity" il).getD Value.none) = false ∨
      (parseDec (pyStrVal ((List.lookup "quantity" il).getD Value.none))).isSome = true) := by
  unfold itemOk at h
  rw [Bool.and_eq_true, Bool.and_eq_true] at h
  obtain ⟨⟨hu, ht⟩, hq⟩ := h
  refine ⟨?_, ?_, ?_⟩
  · cases hu2 : toDecimal ((List.lookup "unit_price" il).getD Value.none) with
    | ok uo => exact ⟨uo, rfl⟩
    | error e => rw [hu2] at hu; cases hu
  · cases ht2 : toDecimal ((List.lookup "line_total" il).getD Value.none) with
    | ok tdo => exact ⟨tdo, rfl⟩
    | error e => rw [ht2] at ht; cases ht
  · rw [Bool.or_eq_true] at hq
    rcases hq with hq | hq
    · left
      cases hqv : truthy ((List.lookup "quantity" il).getD Value.none) with
      | false => rfl
      | true => rw [hqv] at hq; cases hq
    · right
      exact hq

theorem sumLineTotals_ok : ∀ (items : List Value) (acc : Decimal),
    items.all itemOk = true → ∃ d, sumLineTotals items acc = .ok d := by
  intro items
  induction items with
  | nil => exact fun acc _ => ⟨acc, rfl⟩
  | cons item rest ih =>
    intro acc hall
    rw [List.all_cons, Bool.and_eq_true] at hall
    obtain ⟨hitem, hrest⟩ := hall
    cases item <;> (try (unfold itemOk at hitem; cases hitem))
    case dict il =>
      obtain ⟨-, ⟨tdo, hto⟩, -⟩ := itemOk_parts hitem
      unfold sumLineTotals getKey
      simp only [bind, Except.bind, hto]
      exact ih _ hrest

theorem rule4Item_okEx (n : Nat) {item : Value} (hok : itemOk item = true) :
    ∃ l, rule4Item n item = .ok l := by
  cases item <;> (try (unfold itemOk at hok; cases hok))
  case dict il =>
    obtain ⟨⟨uo, huo⟩, ⟨tdo, hto⟩, hq⟩ := itemOk_parts hok
    unfold rule4Item getKey
    simp only [bind, Except.bind, huo, hto]
    cases uo with
    | none => exact ⟨[], rfl⟩
    | some u =>
      cases tdo with
      | none => exact ⟨[], rfl⟩
      | some t =>
        simp only
        by_cases hg : (truthy ((List.lookup "quantity" il).getD Value.none) &&
            u.truthyb && t.truthyb) = true
        · rw [if_pos hg]
          rcases hq with hq | hq
          · rw [Bool.and_eq_true, Bool.and_eq_true] at hg
            rw [hq] at hg
            cases hg.1.1
          · cases hps : parseDec (pyStrVal ((List.lookup "quantity" il).getD Value.none)) with
            | none => rw [hps] at hq; cases hq
            | some qd => exact ⟨_, rfl⟩
        · rw [if_neg hg]
          exact ⟨[], rfl⟩

theorem rule4Warns_okEx : ∀ (items : List Value) (idx : Nat),
    items.all itemOk = true → ∃ w, rule4Warns idx items = .ok w := by
  intro items
  induction items with
  | nil => exact fun idx _ => ⟨[], rfl⟩
  | cons item rest ih =>
    intro idx hall
    rw [List.all_cons, Bool.and_eq_true] at hall
    obtain ⟨hitem, hrest⟩ := hall
    obtain ⟨l, hl⟩ := rule4Item_okEx (idx + 1) hitem
    obtain ⟨w, hw⟩ := ih (idx + 1) hrest
    refine ⟨l ++ w, ?_⟩
    unfold rule4Warns
    simp only [bind, Except.bind, hl, hw]
    rfl

theorem rule3Errs_nil {inv : Record} {n t g : Decimal}
    (hnet : inv.getV "net_total" = .dec n) (hn0 : 0 ≤ n.man)
    (htax : inv.getV "tax_amount" = .dec t) (ht0 : 0 ≤ t.man)
    (hgross : inv.getV "gross_total" = .dec g) (hg0 : 0 ≤ g.man) :
    rule3Errs inv = .ok [] := by
  unfold rule3Errs
  simp only [List.foldlM, hnet, htax, hgross, bind, Except.bind, toDecimal,
    dec_nonneg_ltb hn0, dec_nonneg_ltb ht0, dec_nonneg_ltb hg0]
  simp [pure, Except.pure]

theorem rule2Warns_ok {inv : Record} {items : List Value} (net : Option Decimal)
    (hli : inv.getVD "line_items" (Value.list []) = Value.list items)
    (hall : items.all itemOk = true) :
    ∃ w, rule2Warns inv net = .ok w := by
  simp only [rule2Warns, hli]
  by_cases ht : truthy (Value.list items) = true
  · rw [if_pos ht]
    cases net with
    | none => exact ⟨[], rfl⟩
    | some nn =>
      obtain ⟨d, hd⟩ := sumLineTotals_ok items ⟨0, 0⟩ hall
      refine ⟨if (d.sub nn).abs.gtb tol01 then
        ["Line items sum (" ++ Decimal.decStr d ++ ") does not match net total (" ++
          Decimal.decStr nn ++ ")"] else [], ?_⟩
      show (iterOf (Value.list items) >>= fun its => sumLineTotals its ⟨0, 0⟩ >>= fun s =>
        pure (if (s.sub nn).abs.gtb tol01 then
          ["Line items sum (" ++ Decimal.decStr s ++ ") does not match net total (" ++
            Decimal.decStr nn ++ ")"] else [])) = _
      simp only [show iterOf (Value.list items) = .ok items from rfl, bind, Except.bind, hd]
      rfl
  · rw [if_neg ht]
    exact ⟨[], rfl⟩

theorem checkBusinessRules_clean {inv : Record} {n t g : Decimal} {items : List Value}
    (hnet : inv.getV "net_total" = .dec n) (hn0 : 0 ≤ n.man)
    (htax : inv.getV "tax_amount" = .dec t) (ht0 : 0 ≤ t.man)
    (hgross : inv.getV "gross_total" = .dec g) (hg0 : 0 ≤ g.man)
    (htolb : ((n.add t).sub g).abs.gtb tol01 = false)
    (hli : inv.getVD "line_items" (Value.list []) = Value.list items)
    (hall : items.all itemOk = true) :
    ∃ w, checkBusinessRules inv = .ok ([], w) := by
  obtain ⟨w2, hw2⟩ := rule2Warns_ok (some n) hli hall
  obtain ⟨w4, hw4⟩ := rule4Warns_okEx items 0 hall
  refine ⟨w2 ++ w4, ?_⟩
  unfold checkBusinessRules
  rw [hnet, htax, hgross]
  simp only [toDecimal, bind, Except.bind, hw2,
    rule3Errs_nil hnet hn0 htax ht0 hgross hg0, hli,
    show iterOf (Value.list items) = .ok items from rfl, hw4]
  simp only [rule1Errs, htolb, Bool.false_eq_true, if_false]
  rfl

theorem checkAnomalies_okEx {inv : Record} {g : Decimal}
    (hgross : inv.getV "gross_total" = .dec g) :
    ∃ w, checkAnomalies inv = .ok w := by
  unfold checkAnomalies
  rw [hgross]
  simp only [toDecimal, bind, Except.bind]
  exact ⟨_, rfl⟩

/-! ## The claims -/

/-- C1: the claim says `validate` never raises and `_to_decimal` returns
"no value" on any unparseable input.  The code contradicts this (a code
bug): `Decimal(str(value))` raises `decimal.InvalidOperation`, which the
`except (ValueError, TypeError)` clause does not catch, so `validate`
raises on a record whose `net_total` is the string "abc"; likewise the
currency check calls `.upper()` on a truthy non-string and raises
`AttributeError`.  This theorem evaluates the code at those failing
inputs. -/
theorem c1_validate_raises_on_unparseable_amount :
    validate oracle0 today0 [("invoice_number", .str "INV-9"), ("net_total", .str "abc")] =
      .error PyErr.invalidOperation ∧
    toDecimal (Value.str "abc") = .error PyErr.invalidOperation ∧
    validate oracle0 today0 [("currency", Value.int 5)] = .error PyErr.attributeError :=
  ⟨by decide, by decide, by decide⟩

/-- C2: when `net_total`, `tax_amount` and `gross_total` all convert to
decimals, `validate` reports the exact "Total calculation mismatch" error
message precisely when `|net + tax - gross| > 0.01` under exact decimal
(rational) arithmetic; a deviation of exactly 0.01 is tolerated. -/
theorem c2_total_mismatch_iff (o : Oracle) (today : PyDate) (inv : Record)
    (n t g : Decimal) (res : ValidationResult)
    (hn : toDecimal (inv.getV "net_total") = .ok (some n))
    (ht : toDecimal (inv.getV "tax_amount") = .ok (some t))
    (hg : toDecimal (inv.getV "gross_total") = .ok (some g))
    (h : validate o today inv = .ok res) :
    mismatchMsg n t g ∈ res.errors ↔ 1/100 < |n.val + t.val - g.val| := by
  obtain ⟨e2, w2, e3, w3, w4, hf, hb, ha, -, herr, -, -⟩ := validate_ok h
  obtain ⟨net, tax, gross, r2, r3, items, r4, hn2, ht2, hg2, h2, h3, hi, h4, he3, -⟩ :=
    checkBusinessRules_ok hb
  rw [hn] at hn2
  rw [ht] at ht2
  rw [hg] at hg2
  cases Except.ok.inj hn2
  cases Except.ok.inj ht2
  cases Except.ok.inj hg2
  rw [herr, he3, ← tol_bridge n t g]
  constructor
  · intro hm
    rcases List.mem_append.mp hm with hm | hm
    · rcases List.mem_append.mp hm with hm | hm
      · rcases mem_checkRequiredFields hm with hh | hh | hh <;>
          exact (head_clash hh (mismatchMsg_head n t g) (by decide)).elim
      · obtain ⟨cur, sw, bw, hc, -, -, he2, -⟩ := checkFormats_ok hf
        subst he2
        rcases List.mem_append.mp hm with hm2 | hm2
        · rcases List.mem_append.mp hm2 with hm3 | hm3
          · exact (head_clash (mem_invoiceDateErrs hm3)
              (mismatchMsg_head n t g) (by decide)).elim
          · rcases mem_dueDateErrs hm3 with hh | hh <;>
              exact (head_clash hh (mismatchMsg_head n t g) (by decide)).elim
        · exact (head_clash (mem_currencyErrs hc hm2)
            (mismatchMsg_head n t g) (by decide)).elim
    · rcases List.mem_append.mp hm with hm | hm
      · exact rule1_mem_iff.mp hm
      · exact (head_clash (mem_rule3 h3 hm) (mismatchMsg_head n t g) (by decide)).elim
  · intro hcond
    exact List.mem_append.mpr (Or.inr (List.mem_append.mpr (Or.inl
      (rule1_mem_iff.mpr hcond))))

/-- Witness for C2 at the calculation-mismatch test record (1000 + 200
asserted against a gross of 1100). -/
theorem c2_total_mismatch_iff_witness :
    mismatchMsg ⟨10000, 1⟩ ⟨2000, 1⟩ ⟨11000, 1⟩ ∈ mismatchResult.errors :=
  (c2_total_mismatch_iff oracle0 today0 mismatchInvoice ⟨10000, 1⟩ ⟨2000, 1⟩ ⟨11000, 1⟩
    mismatchResult (by decide) (by decide) (by decide) (by decide)).mpr mismatchGap

theorem decTotalsTight :
    |(⟨100000, 2⟩ : Decimal).val + (⟨18000, 2⟩ : Decimal).val -
      (⟨118000, 2⟩ : Decimal).val| ≤ 1/100 := by
  norm_num [Decimal.val]

/-- C5 counterexample: a record whose eight required fields are all present
and valid and whose totals agree exactly, yet `validate` reports an error,
because its `due_date` (an optional, ninth field) precedes the invoice
date.  The claim quantifies over all such records, so it fails here. -/
theorem c5_counterexample :
    checkRequiredFields dueBeforeInvoice = [] ∧
    ((((⟨10000, 1⟩ : Decimal).add ⟨1800, 1⟩).sub ⟨11800, 1⟩).abs.gtb tol01 = false) ∧
    (validate oracle0 today0 dueBeforeInvoice).map (fun r => (r.is_valid, r.errors)) =
      .ok (false, ["Due date cannot be before invoice date"]) :=
  ⟨by decide, by decide, by decide⟩

/-- C5 amended: a record whose eight required fields are present and valid
(non-blank strings, an allowed currency, a parseable invoice date not in
the future, non-negative Decimal amounts), whose totals agree within 0.01,
and whose optional fields are well-typed — tax IDs absent or strings, the
due date absent or parseable and not before the invoice date, line items a
(possibly absent) list of dicts with convertible amounts — validates with
no errors and `is_valid = true`. -/
theorem c5_valid_record (o : Oracle) (today : PyDate) (inv : Record)
    (ns ds ss bs cs : String) (d : PyDate) (n t g : Decimal) (items : List Value)
    (hinvnum : inv.getV "invoice_number" = .str ns) (hnsb : isBlank ns = false)
    (hdate : inv.getV "invoice_date" = .str ds) (hdp : isoParse ds = some d)
    (hfut : dateLt today d = false)
    (hseller : inv.getV "seller_name" = .str ss) (hssb : isBlank ss = false)
    (hbuyer : inv.getV "buyer_name" = .str bs) (hbsb : isBlank bs = false)
    (hcur : inv.getV "currency" = .str cs) (hcsb : isBlank cs = false)
    (hcsa : allowedCurrencies.contains (pyUpper cs) = true)
    (hnet : inv.getV "net_total" = .dec n) (hn0 : 0 ≤ n.man)
    (htax : inv.getV "tax_amount" = .dec t) (ht0 : 0 ≤ t.man)
    (hgross : inv.getV "gross_total" = .dec g) (hg0 : 0 ≤ g.man)
    (htol : |n.val + t.val - g.val| ≤ 1/100)
    (hdue : inv.getV "due_date" = Value.none ∨
      ∃ us ud, inv.getV "due_date" = .str us ∧ isoParse us = some ud ∧
        dateLt ud d = false)
    (hstid : inv.getV "seller_tax_id" = Value.none ∨
      ∃ s1, inv.getV "seller_tax_id" = .str s1)
    (hbtid : inv.getV "buyer_tax_id" = Value.none ∨
      ∃ s2, inv.getV "buyer_tax_id" = .str s2)
    (hli : inv.getVD "line_items" (Value.list []) = Value.list items)
    (hitems : items.all itemOk = true) :
    ∃ res, validate o today inv = .ok res ∧ res.errors = [] ∧ res.is_valid = true := by
  have htolb : ((n.add t).sub g).abs.gtb tol01 = false := by
    cases hb : ((n.add t).sub g).abs.gtb tol01 with
    | false => rfl
    | true =>
      have := (tol_bridge n t g).mp hb
      linarith
  have hreq := checkRequired_nil hinvnum hnsb hdate (isoParse_not_blank hdp)
    hseller hssb hbuyer hbsb hcur hcsb hnet (not_lt.mpr hn0) htax (not_lt.mpr ht0)
    hgross (not_lt.mpr hg0)
  obtain ⟨wf, hwf⟩ := checkFormats_clean (invoiceDateErrs_nil hdate hdp hfut)
    (dueDateErrs_nil hdate hdp hdue) (currencyErrs_nil hcur hcsb hcsa) hstid hbtid
  obtain ⟨wb, hwb⟩ := checkBusinessRules_clean hnet hn0 htax ht0 hgross hg0 htolb
    hli hitems
  obtain ⟨wa, hwa⟩ := checkAnomalies_okEx hgross
  refine ⟨⟨invoiceIdOf inv, true, [],
    wf ++ wb ++ wa ++ checkDuplicates o inv⟩, ?_, rfl, rfl⟩
  unfold validate
  rw [hwf, hwb, hwa]
  simp only [bind, Except.bind, pure, Except.pure, hreq, List.nil_append,
    List.isEmpty_nil]

/-- Witness for the amended C5 on a fully valid Decimal-amount record. -/
theorem c5_valid_record_witness :
    ∃ res, validate oracle0 today0 decimalInvoice = .ok res ∧
      res.errors = [] ∧ res.is_valid = true :=
  c5_valid_record oracle0 today0 decimalInvoice
    "INV-010" "2024-01-15" "ABC Corp" "XYZ Ltd" "USD" ⟨2024, 1, 15⟩
    ⟨100000, 2⟩ ⟨18000, 2⟩ ⟨118000, 2⟩ []
    rfl (by decide) rfl (by decide) (by decide)
    rfl (by decide) rfl (by decide) rfl (by decide) (by decide)
    rfl (by decide) rfl (by decide) rfl (by decide)
    decTotalsTight
    (Or.inr ⟨"2024-02-15", ⟨2024, 2, 15⟩, rfl, by decide, by decide⟩)
    (Or.inl rfl) (Or.inl rfl) rfl (by decide)

/-- C6: the amount normalizer implements the spec's separator rule: with
both `.` and `,` present, whichever occurs later in the string is the
decimal point and the other is stripped as a thousands separator; with only
a comma, the comma is a decimal point exactly when exactly two digits
follow it, and otherwise is stripped.  `specClean` states that rule in the
spec's words; on strings over the regex alphabet (digits, dots, commas) the
code's transformation coincides with it, so the numeric value produced is
the value under that interpretation. -/
theorem c6_amount_normalizer (amt : List Char)
    (halpha : amt.all (fun c => c.isDigit || c = '.' || c = ',') = true) :
    cleanAmount amt = specClean amt := by
  unfold cleanAmount specClean
  by_cases hboth : (amt.contains ',' && amt.contains '.') = true
  · rw [if_pos hboth, if_pos hboth]
    by_cases hgt : rindex amt ',' > rindex amt '.'
    · rw [if_pos hgt, if_pos hgt]
      exact germanClean amt
    · rw [if_neg hgt, if_neg hgt]
      exact englishClean amt
  · rw [if_neg hboth, if_neg hboth]
    by_cases hcomma : amt.contains ',' = true
    · rw [if_pos hcomma, if_pos hcomma]
      have hnodot : amt.contains '.' = false := by
        cases hd : amt.contains '.' with
        | false => rfl
        | true => exact absurd (by rw [hcomma, hd]; rfl) hboth
      have hdig := suffix_all_digits halpha hnodot
      have hlast := (pySplit_spec ',' amt).1
      by_cases hl : ((amt.reverse.takeWhile (fun c => c ≠ ',')).reverse).length = 2
      · rw [if_pos (by rw [hlast]; exact hl), if_pos ⟨hl, hdig⟩]
      · rw [if_neg (by rw [hlast]; exact hl), if_neg (fun hc => hl hc.1)]
    · rw [if_neg hcomma, if_neg hcomma]

/-- Witness for C6: the German-format amount `1.234,56` normalizes to
`1234.56` and agrees with the spec rule; so does the comma-decimal
`1234,56`. -/
theorem c6_amount_normalizer_witness :
    ("1.234,56".data.all (fun c => c.isDigit || c = '.' || c = ',')) = true ∧
    cleanAmount "1.234,56".data = specClean "1.234,56".data ∧
    cleanAmount "1.234,56".data = "1234.56".data ∧
    cleanAmount "1234,56".data = specClean "1234,56".data ∧
    cleanAmount "1234,56".data = "1234.56".data :=
  ⟨by decide, c6_amount_normalizer _ (by decide), by decide,
   c6_amount_normalizer _ (by decide), by decide⟩

/-- C3: `validate_batch` returns one result per input record in input
order, a summary with `total = len(results)`, `valid = count(is_valid)`,
`invalid = total - valid` (so `valid + invalid = total`), and
`error_counts` mapping each exact error string to its number of
occurrences across all results. -/
theorem c3_validate_batch (o : Oracle) (today : PyDate) (invoices : List Record)
    (out : BatchOutput) (h : validateBatch o today invoices = .ok out) :
    out.results.length = invoices.length ∧
    (∀ i (hi : i < invoices.length) (hr : i < out.results.length),
      validate o today (invoices.get ⟨i, hi⟩) = .ok (out.results.get ⟨i, hr⟩)) ∧
    out.summary.total_invoices = out.results.length ∧
    out.summary.valid_invoices = (out.results.filter (fun r => r.is_valid)).length ∧
    out.summary.invalid_invoices =
      out.summary.total_invoices - out.summary.valid_invoices ∧
    out.summary.valid_invoices + out.summary.invalid_invoices =
      out.summary.total_invoices ∧
    (∀ s, ((out.summary.error_counts.lookup s).getD 0) =
      ((out.results.map (fun r => r.errors)).flatten.count s)) := by
  unfold validateBatch at h
  obtain ⟨results, hres, h⟩ := exceptBind_ok h
  cases Except.ok.inj h
  obtain ⟨hlen, hget⟩ := mapM_ok_length_get _ hres
  refine ⟨hlen, ?_, rfl, rfl, rfl, ?_, ?_⟩
  · intro i hi hr
    exact hget i hi hr
  · have hle : (results.filter (fun r => r.is_valid)).length ≤ results.length :=
      List.length_filter_le _ _
    simp only
    omega
  · intro s
    exact countErrors_lookup results s

/-- Witness for C3 on the two-record batch `[sampleInvoice,
mismatchInvoice]`. -/
theorem c3_validate_batch_witness :
    validateBatch oracle0 today0 [sampleInvoice, mismatchInvoice] = .ok sampleBatchOutput ∧
    sampleBatchOutput.summary.valid_invoices + sampleBatchOutput.summary.invalid_invoices =
      sampleBatchOutput.summary.total_invoices :=
  ⟨by decide,
   (c3_validate_batch oracle0 today0 [sampleInvoice, mismatchInvoice] sampleBatchOutput
     (by decide)).2.2.2.2.2.1⟩

/-- C9 counterexample: the claim says two runs of `validate` on identical
input and duplicate-oracle state return identical results "with no
dependence on any other hidden state".  But `validate` reads the ambient
clock (`date.today()`): the same record validated under two different
current dates yields different error lists. -/
theorem c9_counterexample :
    (validate oracle0 ⟨2024, 1, 1⟩ futureInvoice).map (fun r => r.errors) =
      .ok ["Invoice date cannot be in the future"] ∧
    (validate oracle0 ⟨2100, 1, 1⟩ futureInvoice).map (fun r => r.errors) = .ok [] ∧
    validate oracle0 ⟨2024, 1, 1⟩ futureInvoice ≠ validate oracle0 ⟨2100, 1, 1⟩ futureInvoice :=
  ⟨by decide, by decide, by decide⟩

/-- C9 amended: `validate` is deterministic given the record, the current
date, and the duplicate oracle restricted to the single query the record
can trigger: any two oracles agreeing on that query produce identical
results, so there is no other hidden-state dependence. -/
theorem c9_deterministic (o1 o2 : Oracle) (today : PyDate) (inv : Record)
    (hagree : ∀ n s d, dupQuery inv = some (n, s, d) → o1 n s d = o2 n s d) :
    validate o1 today inv = validate o2 today inv := by
  have hdup : checkDuplicates o1 inv = checkDuplicates o2 inv := by
    simp only [checkDuplicates]
    by_cases hcond : (truthy (inv.getV "invoice_number") &&
        truthy (inv.getV "seller_name") && truthy (inv.getV "invoice_date")) = true
    · rw [if_pos hcond, if_pos hcond]
      have hq := hagree (inv.getV "invoice_number") (inv.getV "seller_name")
        (match inv.getV "invoice_date" with
         | Value.str s => s
         | v => pyStrVal v)
        (by simp only [dupQuery]; rw [if_pos hcond])
      rw [hq]
    · rw [if_neg hcond, if_neg hcond]
  unfold validate
  rw [hdup]

/-- Witness for the amended C9: two syntactically different but
extensionally agreeing oracles validate the sample invoice identically. -/
theorem c9_deterministic_witness :
    validate oracle0 today0 sampleInvoice = validate oracleAlt today0 sampleInvoice :=
  c9_deterministic oracle0 oracleAlt today0 sampleInvoice (fun n s d _ => rfl)


/-- C4: whenever `validate` returns a result, `is_valid` holds exactly when
the error list is empty; warnings play no role in the verdict. -/
theorem c4_is_valid_iff_no_errors (o : Oracle) (today : PyDate) (inv : Record)
    (res : ValidationResult) (h : validate o today inv = .ok res) :
    res.is_valid = true ↔ res.errors = [] := by
  obtain ⟨e2, w2, e3, w3, w4, -, -, -, -, -, -, hv⟩ := validate_ok h
  rw [hv]
  exact List.isEmpty_iff

/-- Witness for C4 at the conftest sample invoice. -/
theorem c4_is_valid_iff_no_errors_witness :
    validate oracle0 today0 sampleInvoice = .ok sampleResult ∧
      (sampleResult.is_valid = true ↔ sampleResult.errors = []) :=
  ⟨by decide,
   c4_is_valid_iff_no_errors oracle0 today0 sampleInvoice sampleResult (by decide)⟩

/-- C7 counterexample: the claim promises the warning for every item whose
quantity, unit price and line total are all *parseable* with
`|quantity * unit_price - line_total| > 0.01`.  The item
`{quantity: 2, unit_price: 5, line_total: 0}` has all three parseable and
|2*5 - 0| = 10 > 0.01, yet the code's truthiness guard
(`if quantity and unit_price and line_total`) skips the zero line total and
emits no warning. -/
theorem c7_counterexample :
    toDecimal (Value.int 2) = .ok (some ⟨2, 0⟩) ∧
    toDecimal (Value.int 5) = .ok (some ⟨5, 0⟩) ∧
    toDecimal (Value.int 0) = .ok (some ⟨0, 0⟩) ∧
    (((⟨2, 0⟩ : Decimal).mul ⟨5, 0⟩).sub ⟨0, 0⟩).abs.gtb tol01 = true ∧
    (validate oracle0 today0 zeroTotalInvoice).map
      (fun r => decide (lineItemMsg 1 ∈ r.warnings)) = .ok false :=
  ⟨by decide, by decide, by decide, by decide, by decide⟩

/-- C7 amended: for the line item at 0-based index `idx`, the warning
"Line item N: quantity * unit_price != line_total" (N = idx+1) appears
exactly when the item's quantity, unit price and line total are all
*truthy* (present and nonzero, the code's guard), quantity's string form
parses as a decimal, and `|quantity * unit_price - line_total| > 0.01`
under exact decimal arithmetic. -/
theorem c7_line_item_warning_iff (o : Oracle) (today : PyDate) (inv : Record)
    (items : List Value) (idx : Nat) (hidx : idx < items.length)
    (il : List (String × Value)) (qv : Value) (qd u t : Decimal)
    (res : ValidationResult)
    (hli : inv.getVD "line_items" (Value.list []) = Value.list items)
    (hitem : items.get ⟨idx, hidx⟩ = Value.dict il)
    (hq : (List.lookup "quantity" il).getD Value.none = qv)
    (hqt : truthy qv = true)
    (hqd : parseDec (pyStrVal qv) = some qd)
    (hu : toDecimal ((List.lookup "unit_price" il).getD Value.none) = .ok (some u))
    (hut : u.truthyb = true)
    (hlt : toDecimal ((List.lookup "line_total" il).getD Value.none) = .ok (some t))
    (htt : t.truthyb = true)
    (h : validate o today inv = .ok res) :
    lineItemMsg (idx + 1) ∈ res.warnings ↔ 1/100 < |qd.val * u.val - t.val| := by
  obtain ⟨e2, w2, e3, w3, w4, hf, hb, ha, -, -, hw, -⟩ := validate_ok h
  obtain ⟨net, tax, gross, r2, r3, items2, r4, -, -, -, h2, -, hi, h4, -, hw3⟩ :=
    checkBusinessRules_ok hb
  rw [hli] at hi
  rw [show (iterOf (Value.list items) = Except.ok items) from rfl] at hi
  cases Except.ok.inj hi
  have heval := rule4Item_eval (n := idx + 1) hq hqt hqd hu hut hlt htt
  rw [← hitem] at heval
  constructor
  · intro hm
    rcases mem_warnings_cases hf hb ha hw hm with hm | hm | hm | hm
    · obtain ⟨cur, sw, bw, -, hs, hbw, -, hw2⟩ := checkFormats_ok hf
      subst hw2
      rcases List.mem_append.mp hm with hm2 | hm2
      · exact (head_clash (mem_taxIdWarns
          (show ("Seller tax ID format may be invalid: ").data.head? = some 'S' from rfl)
          hs hm2) (lineItemMsg_head (idx + 1)) (by decide)).elim
      · exact (head_clash (mem_taxIdWarns
          (show ("Buyer tax ID format may be invalid: ").data.head? = some 'B' from rfl)
          hbw hm2) (lineItemMsg_head (idx + 1)) (by decide)).elim
    · rw [hw3] at hm
      rcases List.mem_append.mp hm with hm2 | hm2
      · exact (nth_clash (mem_rule2 h2 hm2).2 (lineItemMsg_nth9 (idx + 1))
          (by decide)).elim
      · obtain ⟨j, hj, l, hl, hml⟩ := (rule4Warns_ok_iff h4).mp hm2
        have hmsg := rule4Item_ok_mem hl hml
        have hj_eq : j = idx := by
          have := lineItemMsg_inj hmsg.symm
          omega
        subst hj_eq
        rw [Nat.zero_add] at hl
        rw [heval] at hl
        cases Except.ok.inj hl
        split at hml
        · rw [← tol_bridge_mul]
          assumption
        · cases hml
    · rcases mem_checkAnomalies ha hm with hh | hh | hh | hh | hh <;>
        exact (head_clash hh (lineItemMsg_head (idx + 1)) (by decide)).elim
    · exact (head_clash (mem_checkDuplicates hm) (lineItemMsg_head (idx + 1))
        (by decide)).elim
  · intro hcond
    rw [hw, hw3]
    have hmem : lineItemMsg (idx + 1) ∈ r4 := by
      apply (rule4Warns_ok_iff h4).mpr
      refine ⟨idx, hidx, [lineItemMsg (idx + 1)], ?_, by simp⟩
      rw [Nat.zero_add, heval, if_pos ((tol_bridge_mul qd u t).mpr hcond)]
    exact List.mem_append.mpr (Or.inl (List.mem_append.mpr (Or.inl
      (List.mem_append.mpr (Or.inr (List.mem_append.mpr (Or.inr hmem)))))))

/-- Witness for the amended C7 at a record whose single line item violates
its arithmetic (2 * 5 against 20). -/
theorem c7_line_item_warning_iff_witness :
    lineItemMsg 1 ∈ badItemResult.warnings :=
  (c7_line_item_warning_iff oracle0 today0 badItemInvoice
    [.dict [("quantity", .int 2), ("unit_price", .int 5), ("line_total", .int 20)]]
    0 (by decide)
    [("quantity", .int 2), ("unit_price", .int 5), ("line_total", .int 20)]
    (.int 2) ⟨2, 0⟩ ⟨5, 0⟩ ⟨20, 0⟩ badItemResult
    rfl rfl rfl (by decide) (by decide) (by decide) (by decide) (by decide) (by decide)
    (by decide)).mpr itemGap

/-- C8: `invoice_id` is the string form of a present, non-blank
`invoice_number`; otherwise it is the synthesized
`UNKNOWN_<source_file>` fallback, with `NO_FILE` when no `source_file`
key is given. -/
theorem c8_invoice_id (o : Oracle) (today : PyDate) (inv : Record)
    (res : ValidationResult) (h : validate o today inv = .ok res) :
    (∀ v, inv.getV "invoice_number" = v →
      v ≠ Value.none → (∀ s, v = Value.str s → isBlank s = false) →
      res.invoice_id = pyStrVal v) ∧
    ((inv.getV "invoice_number" = Value.none ∨
      (∃ s, inv.getV "invoice_number" = Value.str s ∧ isBlank s = true)) →
      res.invoice_id = "UNKNOWN_" ++
        (match List.lookup "source_file" inv with
         | some v => pyStrVal v
         | Option.none => "NO_FILE")) := by
  obtain ⟨e2, w2, e3, w3, w4, -, -, -, hid, -, -, -⟩ := validate_ok h
  rw [hid]
  unfold invoiceIdOf
  constructor
  · intro v hv hnn hns
    rw [hv]
    cases v with
    | none => exact absurd rfl hnn
    | str s =>
      simp only [hns s rfl, Bool.false_eq_true, if_false]
      rfl
    | bool b => rfl
    | int n => rfl
    | flt d => rfl
    | dec d => rfl
    | date d => rfl
    | list l => rfl
    | dict l => rfl
  · intro hcase
    rcases hcase with hn | ⟨s, hs, hb⟩
    · rw [hn]
    · rw [hs]
      simp only [hb, if_true]

/-- Witness for C8: a blank invoice number with a source file yields the
synthesized fallback id. -/
theorem c8_invoice_id_witness :
    ∃ res, validate oracle0 today0 blankNumberInvoice = .ok res ∧
      res.invoice_id = "UNKNOWN_scan1.pdf" := by
  refine ⟨blankNumberResult, by decide, ?_⟩
  exact (c8_invoice_id oracle0 today0 blankNumberInvoice blankNumberResult (by decide)).2
    (Or.inr ⟨"  ", rfl, rfl⟩)

/-- C10: the required-field completeness check emits a finding exactly for
a null value, a blank string, or a negative int/float/Decimal; any other
present value (booleans, lists, mappings, dates...) passes.  The check's
error list is the in-order concatenation of the per-field findings. -/
theorem c10_required_field_findings :
    (∀ inv : Record, checkRequiredFields inv =
      requiredFields.filterMap (fun f => fieldFinding f (inv.getV f))) ∧
    (∀ f v, (fieldFinding f v).isSome = true ↔
      (v = Value.none ∨ (∃ s, v = Value.str s ∧ isBlank s = true) ∨
       (∃ n : Int, v = Value.int n ∧ n < 0) ∨
       (∃ d, v = Value.flt d ∧ d.val < 0) ∨
       (∃ d, v = Value.dec d ∧ d.val < 0))) ∧
    (∀ f, fieldFinding f (Value.bool false) = Option.none) ∧
    (∀ f l, fieldFinding f (Value.list l) = Option.none) ∧
    (∀ f l, fieldFinding f (Value.dict l) = Option.none) ∧
    (∀ f, fieldFinding f Value.none = some ("Missing required field: " ++ f)) ∧
    (∀ f, fieldFinding f (Value.str "  ") = some ("Empty required field: " ++ f)) ∧
    (∀ f, fieldFinding f (Value.int (-3)) = some ("Negative value in required field: " ++ f)) := by
  refine ⟨fun _ => rfl, ?_, fun _ => rfl, fun _ _ => rfl, fun _ _ => rfl,
    fun _ => rfl, fun _ => rfl, fun _ => rfl⟩
  intro f v
  cases v <;> simp only [fieldFinding]
  case none => simp
  case bool b => simp
  case int n =>
    constructor
    · intro h
      split at h
      · rename_i hneg
        exact Or.inr (Or.inr (Or.inl ⟨n, rfl, hneg⟩))
      · cases h
    · rintro (h | ⟨s, hs, -⟩ | ⟨m, hm, hneg⟩ | ⟨d, hd, -⟩ | ⟨d2, hd2, -⟩)
      · cases h
      · cases hs
      · cases Value.int.inj hm
        rw [if_pos hneg]
        rfl
      · cases hd
      · cases hd2
  case flt d =>
    constructor
    · intro h
      split at h
      · rename_i hneg
        exact Or.inr (Or.inr (Or.inr (Or.inl ⟨d, rfl, (val_neg_iff d).mpr hneg⟩)))
      · cases h
    · rintro (h | ⟨s, hs, -⟩ | ⟨m, hm, -⟩ | ⟨d2, hd2, hneg⟩ | ⟨d3, hd3, -⟩)
      · cases h
      · cases hs
      · cases hm
      · cases Value.flt.inj hd2
        rw [if_pos ((val_neg_iff _).mp hneg)]
        rfl
      · cases hd3
  case dec d =>
    constructor
    · intro h
      split at h
      · rename_i hneg
        exact Or.inr (Or.inr (Or.inr (Or.inr ⟨d, rfl, (val_neg_iff d).mpr hneg⟩)))
      · cases h
    · rintro (h | ⟨s, hs, -⟩ | ⟨m, hm, -⟩ | ⟨d2, hd2, -⟩ | ⟨d3, hd3, hneg⟩)
      · cases h
      · cases hs
      · cases hm
      · cases hd2
      · cases Value.dec.inj hd3
        rw [if_pos ((val_neg_iff _).mp hneg)]
        rfl
  case str s =>
    constructor
    · intro h
      split at h
      · rename_i hb
        exact Or.inr (Or.inl ⟨s, rfl, hb⟩)
      · cases h
    · rintro (h | ⟨s2, hs, hb⟩ | ⟨m, hm, -⟩ | ⟨d, hd, -⟩ | ⟨d2, hd2, -⟩)
      · cases h
      · cases Value.str.inj hs
        rw [if_pos hb]
        rfl
      · cases hm
      · cases hd
      · cases hd2
  case date d => simp
  case list l => simp
  case dict l => simp

end InvoiceQC
